import Mathlib

/-!
Verification development for the hybrid bidding QA assistant's
query-understanding and safe-query-synthesis pipeline.

The Lean definitions below are a shallow embedding of the Python sources:

* `src/router/query_router.py`        → `QueryRouter.*`
* `src/sql_engine/db_schema.py`       → `TableSchema`, `DBSchema`
* `src/sql_engine/ir2sql.py`          → `IR2SQL.*`
* `src/validators/confidence_checker.py` → `ConfidenceChecker.*`
* `src/validators/business_validator.py` → `BusinessValidator.*`
* `src/validators/schema_validator.py`   → `IRSchemaValidator.*`
* `src/preprocess/llm_ir_generator.py`   → `LlmIRGenerator.*`

Modelling conventions:

* Python runtime values that flow through `Dict[str, Any]` objects are
  embedded as the inductive `PyVal` (None / bool / int / str / list / dict).
* Python floats in the confidence checker and business validator are
  modelled as rationals (`ℚ`); every arithmetic operation used by that code
  (`max`, `min`, comparison, division of an integer by the constant 50)
  is order-exact, so the ordering facts proved here are insensitive to the
  float/rational distinction.
* Code that can raise an exception is embedded with `Except String`.
* The configuration files `config/rules.yaml` and `config/data_schema.yaml`
  are not part of the repository snapshot; the values read from them are
  modelled from the spec (see `defaultIR2SQL` and the validator
  configuration structures below) and all general theorems are stated for
  arbitrary configurations wherever possible.
-/

/-- Embedding of the Python values that flow through the pipeline's
`Dict[str, Any]` payloads: `None`, `bool`, `int`, `str`, `list`, `dict`
(dicts are association lists in key-insertion order, as in Python 3.7+). -/
inductive PyVal where
  | vNone : PyVal
  | vBool (b : Bool) : PyVal
  | vInt (n : Int) : PyVal
  | vStr (s : String) : PyVal
  | vList (l : List PyVal) : PyVal
  | vDict (l : List (String × PyVal)) : PyVal
deriving Repr

mutual

/-- Decidable equality for `PyVal`. -/
def PyVal.beq : PyVal → PyVal → Bool
  | .vNone, .vNone => true
  | .vBool a, .vBool b => a == b
  | .vInt a, .vInt b => a == b
  | .vStr a, .vStr b => a == b
  | .vList a, .vList b => PyVal.beqList a b
  | .vDict a, .vDict b => PyVal.beqDict a b
  | _, _ => false

/-- Elementwise equality of `PyVal` lists. -/
def PyVal.beqList : List PyVal → List PyVal → Bool
  | [], [] => true
  | a :: as', b :: bs' => PyVal.beq a b && PyVal.beqList as' bs'
  | _, _ => false

/-- Elementwise equality of `PyVal` dict entries. -/
def PyVal.beqDict : List (String × PyVal) → List (String × PyVal) → Bool
  | [], [] => true
  | (ka, va) :: as', (kb, vb) :: bs' =>
    ka == kb && PyVal.beq va vb && PyVal.beqDict as' bs'
  | _, _ => false

end

instance : BEq PyVal := ⟨PyVal.beq⟩

mutual

/-- Lemma: `PyVal.beq` really decides equality (used to recover `DecidableEq`). -/
theorem PyVal.beq_iff : ∀ a b : PyVal, PyVal.beq a b = true ↔ a = b
  | .vNone, .vNone => by simp [PyVal.beq]
  | .vNone, .vBool _ | .vNone, .vInt _ | .vNone, .vStr _ | .vNone, .vList _
  | .vNone, .vDict _ => by simp [PyVal.beq]
  | .vBool _, .vNone | .vBool _, .vInt _ | .vBool _, .vStr _ | .vBool _, .vList _
  | .vBool _, .vDict _ => by simp [PyVal.beq]
  | .vInt _, .vNone | .vInt _, .vBool _ | .vInt _, .vStr _ | .vInt _, .vList _
  | .vInt _, .vDict _ => by simp [PyVal.beq]
  | .vStr _, .vNone | .vStr _, .vBool _ | .vStr _, .vInt _ | .vStr _, .vList _
  | .vStr _, .vDict _ => by simp [PyVal.beq]
  | .vList _, .vNone | .vList _, .vBool _ | .vList _, .vInt _ | .vList _, .vStr _
  | .vList _, .vDict _ => by simp [PyVal.beq]
  | .vDict _, .vNone | .vDict _, .vBool _ | .vDict _, .vInt _ | .vDict _, .vStr _
  | .vDict _, .vList _ => by simp [PyVal.beq]
  | .vBool a, .vBool b => by simp [PyVal.beq]
  | .vInt a, .vInt b => by simp [PyVal.beq]
  | .vStr a, .vStr b => by simp [PyVal.beq]
  | .vList a, .vList b => by
    simpa [PyVal.beq] using PyVal.beqList_iff a b
  | .vDict a, .vDict b => by
    simpa [PyVal.beq] using PyVal.beqDict_iff a b

/-- List version of `PyVal.beq_iff`. -/
theorem PyVal.beqList_iff : ∀ a b : List PyVal, PyVal.beqList a b = true ↔ a = b
  | [], [] => by simp [PyVal.beqList]
  | [], _ :: _ => by simp [PyVal.beqList]
  | _ :: _, [] => by simp [PyVal.beqList]
  | a :: as', b :: bs' => by
    simp [PyVal.beqList, Bool.and_eq_true, PyVal.beq_iff a b,
      PyVal.beqList_iff as' bs']

/-- Dict version of `PyVal.beq_iff`. -/
theorem PyVal.beqDict_iff :
    ∀ a b : List (String × PyVal), PyVal.beqDict a b = true ↔ a = b
  | [], [] => by simp [PyVal.beqDict]
  | [], _ :: _ => by simp [PyVal.beqDict]
  | _ :: _, [] => by simp [PyVal.beqDict]
  | (ka, va) :: as', (kb, vb) :: bs' => by
    simp [PyVal.beqDict, Bool.and_eq_true, PyVal.beq_iff va vb,
      PyVal.beqDict_iff as' bs', Prod.ext_iff, and_assoc]

end

instance : DecidableEq PyVal := fun a b =>
  decidable_of_iff (PyVal.beq a b = true) (PyVal.beq_iff a b)

instance : LawfulBEq PyVal where
  eq_of_beq h := (PyVal.beq_iff _ _).mp h
  rfl := (PyVal.beq_iff _ _).mpr rfl

/-- Python truthiness (`bool(v)`) for embedded values. -/
def PyVal.truthy : PyVal → Bool
  | .vNone => false
  | .vBool b => b
  | .vInt n => n != 0
  | .vStr s => s ≠ ""
  | .vList l => !l.isEmpty
  | .vDict l => !l.isEmpty

/-- Python `dict.get(key)` on an embedded dict (first binding wins). -/
def pyDictGet (l : List (String × PyVal)) (k : String) : Option PyVal :=
  match l.find? (fun p => p.1 == k) with
  | some p => some p.2
  | none => none

mutual

/-- Python `str(v)` / `repr(v)` rendering, as used by
`params.append(str(value))` in `ir2sql.py` (the exact text of the rendering
of compound values is irrelevant to every claim; only totality and the
rendering of scalars matter). -/
def PyVal.pyStr : PyVal → String
  | .vNone => "None"
  | .vBool b => if b then "True" else "False"
  | .vInt n => toString n
  | .vStr s => s
  | .vList l => "[" ++ PyVal.pyStrList l ++ "]"
  | .vDict l => "dict(" ++ PyVal.pyStrDict l ++ ")"

/-- Rendering of list elements, comma separated. -/
def PyVal.pyStrList : List PyVal → String
  | [] => ""
  | [x] => PyVal.pyStr x
  | x :: xs => PyVal.pyStr x ++ ", " ++ PyVal.pyStrList xs

/-- Rendering of dict entries, comma separated. -/
def PyVal.pyStrDict : List (String × PyVal) → String
  | [] => ""
  | [(k, v)] => k ++ ": " ++ PyVal.pyStr v
  | (k, v) :: xs => k ++ ": " ++ PyVal.pyStr v ++ ", " ++ PyVal.pyStrDict xs

end

/-- Substring test on character lists: Python's `needle in haystack`
for strings. -/
def listIsSub (needle : List Char) : List Char → Bool
  | [] => needle.isEmpty
  | c :: rest => needle.isPrefixOf (c :: rest) || listIsSub needle rest

/-- Python `str.lower()`. Only ASCII letters are affected; every keyword
this code base matches on is Chinese and is a fixed point of lowering. -/
def pyLower (s : String) : String := ⟨s.data.map Char.toLower⟩

/-- Python `k in q` substring containment on strings. -/
def strIn (k : String) (q : String) : Bool := listIsSub k.data q.data

section Router

/-!
Embedding of `src/router/query_router.py`.

`QueryRouter.__init__` loads `router.intent_map` from `config/rules.yaml`;
that file is absent from the snapshot, so the intent map is carried as an
explicit parameter (`intentMap`).  The optional LLM classifier
(`llm_classifier`) is a parameter returning `Option String`: the `try`
block of `_safe_llm_classify` converts any raised exception into `None`.
-/

/-- Result record of `QueryRouter.route` (`RouteResult` dataclass). -/
structure RouteResult where
  route : String
  intent : String
  entity_type : Option String
  reason : Option String := none
deriving Repr, DecidableEq

/-- Embedding of `QueryRouter._rule_based_route`: ordered keyword rules over the
lowercased query; returns `(intent, entity, route)`. -/
def rule_based_route (query : String) : String × Option String × String :=
  let q := pyLower query
  if ["政策", "扶持", "规范", "办法", "通知", "条例"].any (fun k => strIn k q) then
    ("policy_query", some "policy", "rag")
  else if ["舆情", "口碑", "负面", "风险", "投诉", "舆论"].any (fun k => strIn k q) then
    ("opinion_query", some "opinion", "rag")
  else if ["招标", "中标", "投标", "项目", "标段"].any (fun k => strIn k q) then
    if ["政策", "扶持", "补贴", "优惠"].any (fun k => strIn k q) then
      ("hybrid_query", some "tender", "hybrid")
    else
      ("tender_query", some "tender", "sql")
  else if ["公司", "企业", "供应商", "厂商"].any (fun k => strIn k q) then
    ("company_query", some "company", "sql")
  else if ["价格", "报价", "行情", "单价", "成本"].any (fun k => strIn k q) then
    ("items_query", some "price", "sql")
  else
    ("general_query", none, "rag")

/-- Embedding of `QueryRouter._intent_to_route`: map a classifier label through the
configured `router.intent_map` (carried as the parameter `intentMap`,
already combining the `route`/`router` key compatibility lookup). -/
def intent_to_route (intentMap : String → Option String) (intent : String) : String :=
  match intentMap intent with
  | some r => if r = "rag" ∨ r = "sql" ∨ r = "hybrid" then r else "other"
  | none => "other"

/-- Python `str.strip()` (whitespace from both ends), used on the
classifier's label. -/
def pyStrip (s : String) : String :=
  ⟨(s.data.dropWhile Char.isWhitespace).reverse.dropWhile Char.isWhitespace |>.reverse⟩

/-- The fixed classification prompt built by `QueryRouter._safe_llm_classify`. -/
def classifyPrompt (query : String) : String :=
  "你是一个用于分类查询意图的助手，请根据用户问题输出以下标签之一：\n" ++
  "- policy_query\n- opinion_query\n- tender_query\n- company_query\n" ++
  "- items_query\n- hybrid_query\n只输出标签本身，不要额外解释。\n\n" ++
  "用户问题：" ++ query

/-- Embedding of `QueryRouter._safe_llm_classify`: call the external classifier; any
exception is caught and mapped to `None` (the classifier parameter already
returns `Option String` to model its fallibility). -/
def safe_llm_classify (cls : String → Option String) (query : String) :
    Option String :=
  (cls (classifyPrompt query)).map pyStrip

/-- Embedding of `QueryRouter.route`: rule-based routing, then — only when a classifier
is configured and the rule route is `"other"` — classifier refinement. -/
def QueryRouter.route (cls : Option (String → Option String))
    (intentMap : String → Option String) (query : String) : RouteResult :=
  let (intent, entity, route) := rule_based_route query
  match cls with
  | none => { route := route, intent := intent, entity_type := entity }
  | some f =>
    if route = "other" then
      match safe_llm_classify f query with
      | some label =>
        if label ≠ "" then
          { route := intent_to_route intentMap label, intent := label,
            entity_type := entity }
        else
          { route := route, intent := intent, entity_type := entity }
      | none => { route := route, intent := intent, entity_type := entity }
    else
      { route := route, intent := intent, entity_type := entity }

end Router

section SqlEngine

/-!
Embedding of `src/sql_engine/db_schema.py` and `src/sql_engine/ir2sql.py`.
-/

/-- Embedding of `TableSchema` dataclass from `db_schema.py`. -/
structure TableSchema where
  name : String
  columns : List String
  primary_key : Option String
deriving Repr, DecidableEq

/-- Embedding of `TableSchema.has_column`. -/
def TableSchema.has_column (t : TableSchema) (col : String) : Bool :=
  t.columns.contains col

/-- The table map held by `DBSchema` (`self._tables`), in insertion order. -/
abbrev DBSchemaT : Type := List (String × TableSchema)

/-- Embedding of `DBSchema.get`: dictionary lookup of a table by name. -/
def DBSchemaT.get (s : DBSchemaT) (table : String) : Option TableSchema :=
  match List.find? (fun p => p.1 == table) s with
  | some p => some p.2
  | none => none

/-- A single entry of the IR's `filters` list, as read by `IR2SQL.build`
via `cond.get("field") / cond.get("op") / cond.get("value")`.
`none` stands for a missing key (Python `None`).  Named after the spec's
`FilterCondition` record (the Lean name `Filter` is taken by Mathlib). -/
structure FilterCondition where
  field : Option String := none
  op : Option String := none
  value : PyVal := .vNone
deriving Repr, DecidableEq

/-- The IR dictionary as consumed by `IR2SQL.build` (`ir.get("table")`,
`ir.get("select")`, `ir.get("filters")`, `ir.get("limit")`).
`filters = []` also covers a missing/`None` entry because the source
immediately replaces falsy values by `[]` (`ir.get("filters") or []`). -/
structure IR where
  table : Option String := none
  select : Option (List String) := none
  filters : List FilterCondition := []
  limit : PyVal := .vNone
deriving Repr, DecidableEq

/-- Result record of `IR2SQL.build` (`SqlBuildResult` dataclass). -/
structure SqlBuildResult where
  sql : String
  params : List PyVal
deriving Repr, DecidableEq

/-- The configuration state of an `IR2SQL` instance: `allowed_ops` and
`max_limit` from `config/rules.yaml`, plus the loaded `DBSchema`. -/
structure IR2SQL where
  allowed_ops : List String
  max_limit : Int
  schema : DBSchemaT

/-- Python `", ".join` / `" AND ".join`. -/
def pyJoin (sep : String) : List String → String
  | [] => ""
  | [x] => x
  | x :: y :: xs => x ++ sep ++ pyJoin sep (y :: xs)

/-- Python `isinstance(v, int)` result together with the integer value
(`True`/`False` are `int` instances valued 1/0 in Python). -/
def PyVal.toIntLike : PyVal → Option Int
  | .vInt n => some n
  | .vBool b => some (if b then 1 else 0)
  | _ => none

/-- The row-limit clamp of `IR2SQL.build`: a missing, non-int, or
non-positive `limit` is replaced by `max_limit`; otherwise
`min(limit, max_limit)` (Python's `min` returns its first argument on
ties, so a `True` limit survives as the object `True`). -/
def clampLimit (maxL : Int) (v : PyVal) : PyVal :=
  match v.toIntLike with
  | none => .vInt maxL
  | some n => if n ≤ 0 then .vInt maxL else if n ≤ maxL then v else .vInt maxL

/-- The per-filter step of the `for cond in ir.get("filters") or []` loop
in `IR2SQL.build`: `none` means the filter is skipped (`continue`),
otherwise the produced WHERE fragment and its parameters are returned. -/
def processFilter (allowed_ops : List String) (ts : TableSchema) (c : FilterCondition) :
    Option (String × List PyVal) :=
  match c.field, c.op with
  | some f, some op =>
    if f = "" ∨ op = "" then none
    else if allowed_ops.contains op = false then none
    else if ts.has_column f = false then none
    else if op = "between" then
      match c.value with
      | .vList [a, b] => some ("`" ++ f ++ "` BETWEEN %s AND %s", [a, b])
      | _ => none
    else if op = "like" then
      some ("`" ++ f ++ "` LIKE %s", [.vStr c.value.pyStr])
    else
      some ("`" ++ f ++ "` " ++ op ++ " %s", [c.value])
  | _, _ => none

/-- The whole filter loop of `IR2SQL.build`, accumulating
`where_sql_parts` and `params` in order. -/
def buildLoop (allowed_ops : List String) (ts : TableSchema)
    (filters : List FilterCondition) : List String × List PyVal :=
  filters.foldl
    (fun acc cond =>
      match processFilter allowed_ops ts cond with
      | none => acc
      | some (s, vs) => (acc.1 ++ [s], acc.2 ++ vs))
    ([], [])

/-- The `select` handling of `IR2SQL.build`: wildcard passes through,
otherwise every column must exist in the table schema. -/
def colsSqlOf (ts : TableSchema) (select_cols : List String) :
    Except String String :=
  if select_cols = ["*"] then .ok "*"
  else if select_cols.filter (fun c => ts.has_column c = false) = [] then
    .ok (pyJoin ", " (select_cols.map (fun c => "`" ++ c ++ "`")))
  else
    .error ("invalid select columns: " ++
      pyJoin ", " (select_cols.filter (fun c => ts.has_column c = false)))

/-- Embedding of `select_cols = ir.get("select") or ["*"]`: Python `or` replaces the
falsy values (`None`, `[]`) by the wildcard list. -/
def selectColsOf : Option (List String) → List String
  | none => ["*"]
  | some [] => ["*"]
  | some l => l

/-- Embedding of `IR2SQL.build`: IR → parameterized SELECT statement.  Raised
`ValueError`s are embedded as `Except.error`. -/
def IR2SQL.build (cfg : IR2SQL) (ir : IR) : Except String SqlBuildResult :=
  match ir.table with
  | none => .error "IR missing 'table' field for SQL generation."
  | some t =>
    if t = "" then .error "IR missing 'table' field for SQL generation."
    else
      match cfg.schema.get t with
      | none => .error ("unknown table: " ++ t)
      | some ts =>
        match colsSqlOf ts (selectColsOf ir.select) with
        | .error e => .error e
        | .ok cols_sql =>
          let pr := buildLoop cfg.allowed_ops ts ir.filters
          let where_sql :=
            if pr.1 = [] then "" else " WHERE " ++ pyJoin " AND " pr.1
          let lim := clampLimit cfg.max_limit ir.limit
          .ok { sql := "SELECT " ++ cols_sql ++ " FROM " ++ t ++ where_sql
                        ++ " LIMIT " ++ lim.pyStr,
                params := pr.2 }

/-- Modelled from the spec: the repository snapshot does not include
`config/rules.yaml` or `config/data_schema.yaml`, so the operator
whitelist (`=, >, <, >=, <=, between, like` per §3 and the IR prompt),
the row-limit ceiling 100 (per §8's synthesis example) and a minimal
schema registry holding the spec's `tender_project` / `company_master`
tables (with the `amount` column used by §8) are taken from the spec's
words. -/
def defaultIR2SQL : IR2SQL where
  allowed_ops := ["=", ">", "<", ">=", "<=", "between", "like"]
  max_limit := 100
  schema :=
    [("tender_project",
      { name := "tender_project",
        columns := ["project_id", "project_name", "company_name", "amount",
                    "publish_date", "status"],
        primary_key := some "project_id" }),
     ("company_master",
      { name := "company_master",
        columns := ["company_id", "company_name", "registered_capital",
                    "industry"],
        primary_key := some "company_id" })]

end SqlEngine


section Validators

/-!
Embedding of `src/validators/confidence_checker.py`,
`src/validators/business_validator.py` and
`src/validators/schema_validator.py`.
-/

/-- Embedding of `ConfidenceInput` dataclass: all three signals optional. -/
structure ConfidenceInput where
  retriever_scores : Option (List ℚ) := none
  reranker_scores : Option (List ℚ) := none
  sql_row_count : Option Int := none
deriving Repr, DecidableEq

/-- Embedding of `ConfidenceResult` dataclass. -/
structure ConfidenceResult where
  score : ℚ
  is_confident : Bool
deriving Repr, DecidableEq

/-- Python `max` over a non-empty list, head split off. -/
def listMax (x : ℚ) (xs : List ℚ) : ℚ := xs.foldl max x

/-- Embedding of `ConfidenceChecker.evaluate` with the configured
`router.confidence_threshold` as parameter.  `if inputs.retriever_scores:`
is Python truthiness, so `None` and `[]` both count as absent. -/
def ConfidenceChecker.evaluate (threshold : ℚ) (i : ConfidenceInput) :
    ConfidenceResult :=
  let scores : List ℚ := []
  let scores :=
    match i.retriever_scores with
    | some (x :: xs) => scores ++ [listMax x xs]
    | _ => scores
  let scores :=
    match i.reranker_scores with
    | some (x :: xs) => scores ++ [listMax x xs]
    | _ => scores
  let scores :=
    match i.sql_row_count with
    | some rc => scores ++ [min 1 ((max 0 rc : Int) / (50 : ℚ))]
    | none => scores
  let final_score := match scores with
    | [] => (0 : ℚ)
    | x :: xs => listMax x xs
  { score := final_score, is_confident := decide (threshold ≤ final_score) }

/-- Embedding of `BusinessValidationResult` dataclass. -/
structure BusinessValidationResult where
  ok : Bool
  warnings : List String
deriving Repr, DecidableEq

/-- Python `obj.get(key, default)` — an `AttributeError` for anything that
is not a dict. -/
def pyGetAttrD (ir : PyVal) (k : String) (dflt : PyVal) : Except String PyVal :=
  match ir with
  | .vDict l => .ok ((pyDictGet l k).getD dflt)
  | _ => .error "AttributeError: object has no attribute get"

/-- Python comparison `v < q` against a float bound: defined for numbers
(`bool` included), a `TypeError` otherwise. -/
def pyLtQ (v : PyVal) (q : ℚ) : Except String Bool :=
  match v.toIntLike with
  | some n => .ok (decide ((n : ℚ) < q))
  | none => .error "TypeError: unorderable types"

/-- Python comparison `v > q` against a float bound. -/
def pyGtQ (v : PyVal) (q : ℚ) : Except String Bool :=
  match v.toIntLike with
  | some n => .ok (decide (q < (n : ℚ)))
  | none => .error "TypeError: unorderable types"

/-- Python comparison `a > b` between two stored values: numbers compare
numerically, strings lexicographically, anything else is a `TypeError`. -/
def pyGtVal (a b : PyVal) : Except String Bool :=
  match a, b with
  | .vStr s, .vStr t => .ok (decide (t < s))
  | _, _ =>
    match a.toIntLike, b.toIntLike with
    | some m, some n => .ok (decide (n < m))
    | _, _ => .error "TypeError: unorderable types"

/-- The `if min_v is not None and min_v < self.amount_min` warning. -/
def amountMinWarning (amount_min : ℚ) (min_v : PyVal) :
    Except String (List String) :=
  if min_v ≠ PyVal.vNone then
    (pyLtQ min_v amount_min) >>= fun b =>
      pure (if b then
        ["amount.min=" ++ min_v.pyStr ++ " < configured min_value, clipped."]
      else [])
  else pure []

/-- The `if max_v is not None and max_v > self.amount_max` warning. -/
def amountMaxWarning (amount_max : ℚ) (max_v : PyVal) :
    Except String (List String) :=
  if max_v ≠ PyVal.vNone then
    (pyGtQ max_v amount_max) >>= fun b =>
      pure (if b then
        ["amount.max=" ++ max_v.pyStr ++ " > configured max_value, clipped."]
      else [])
  else pure []

/-- The `if min_v is not None and max_v is not None and min_v > max_v`
warning. -/
def amountSwapWarning (min_v max_v : PyVal) : Except String (List String) :=
  if min_v ≠ PyVal.vNone ∧ max_v ≠ PyVal.vNone then
    (pyGtVal min_v max_v) >>= fun b =>
      pure (if b then
        ["amount_range.min > amount_range.max, will be swapped."]
      else [])
  else pure []

/-- The `amount_range` block of `BusinessValidator.validate_ir`. -/
def checkAmountRange (amount_min amount_max : ℚ) (ar : PyVal) :
    Except String (List String) :=
  match ar with
  | .vDict l =>
    (amountMinWarning amount_min ((pyDictGet l "min").getD .vNone)) >>= fun w1 =>
    (amountMaxWarning amount_max ((pyDictGet l "max").getD .vNone)) >>= fun w2 =>
    (amountSwapWarning ((pyDictGet l "min").getD .vNone)
      ((pyDictGet l "max").getD .vNone)) >>= fun w3 =>
    pure (w1 ++ w2 ++ w3)
  | _ => pure []

/-- The `date_range` block of `BusinessValidator.validate_ir`: plain
string comparison of `str(start)` and `str(end)`, never raising. -/
def checkDateRange (dr : PyVal) : List String :=
  match dr with
  | .vDict l =>
    let start := (pyDictGet l "publish_start").getD .vNone
    let stop := (pyDictGet l "publish_end").getD .vNone
    if start.truthy && stop.truthy && decide (stop.pyStr < start.pyStr) then
      ["date_range.publish_start > publish_end."]
    else []
  | _ => []

/-- Embedding of `BusinessValidator.validate_ir` with the configured amount bounds
(`normalize.amount.min_value` / `max_value`) as parameters.
Exceptions raised by the Python code (attribute errors on non-dict
payloads, type errors on unorderable comparisons) are `Except.error`. -/
def BusinessValidator.validate_ir (amount_min amount_max : ℚ) (ir : PyVal) :
    Except String BusinessValidationResult := do
  let sc ← pyGetAttrD ir "structured_conditions" (.vDict [])
  let ar ← pyGetAttrD sc "amount_range" .vNone
  let amountWarnings ← checkAmountRange amount_min amount_max ar
  let sc2 ← pyGetAttrD ir "structured_conditions" (.vDict [])
  let dr ← pyGetAttrD sc2 "date_range" .vNone
  let warnings := amountWarnings ++ checkDateRange dr
  pure { ok := warnings.isEmpty, warnings := warnings }

/-- Embedding of `SchemaValidationResult` dataclass of `schema_validator.py`. -/
structure SchemaValidationResult where
  ok : Bool
  errors : List String
deriving Repr, DecidableEq

/-- Modelled from the spec: the configuration of `IRSchemaValidator`,
normally read from the missing `config/rules.yaml` and
`config/data_schema.yaml` (required top-level IR fields, max filter
count, operator whitelist, fuzzy-search switch, and the parsed
`ENUM[...]` of legal `query_type` values). -/
structure IRSchemaCfg where
  required_fields : List String
  max_filters : Int
  allowed_ops : List String
  allow_fuzzy : Bool
  query_type_enum : List String

/-- Python `k not in ir` for the required-field loop: key lookup on dicts,
membership on lists, substring on strings, a `TypeError` otherwise. -/
def pyNotIn (k : String) (ir : PyVal) : Except String Bool :=
  match ir with
  | .vDict l => .ok (!(l.any (fun p => p.1 == k)))
  | .vList l => .ok (!(l.any (fun v => v == PyVal.vStr k)))
  | .vStr s => .ok (!(strIn k s))
  | _ => .error "TypeError: argument is not iterable"

/-- The required-field loop of `IRSchemaValidator.validate`. -/
def requiredFieldErrors (fields : List String) (ir : PyVal) :
    Except String (List String) :=
  match fields with
  | [] => .ok []
  | f :: rest => do
    let missing ← pyNotIn f ir
    let tail ← requiredFieldErrors rest ir
    pure ((if missing then ["missing required field: " ++ f] else []) ++ tail)

/-- Embedding of `IRSchemaValidator._validate_single_filter`. -/
def validate_single_filter (cfg : IRSchemaCfg) (cond : PyVal) (idx : Nat) :
    Except String (List String) := do
  let field ← pyGetAttrD cond "field" .vNone
  let op ← pyGetAttrD cond "op" .vNone
  let e1 := if !field.truthy then
      ["filters[" ++ toString idx ++ "].field is required"] else []
  let e2 :=
    if !op.truthy then ["filters[" ++ toString idx ++ "].op is required"]
    else if !(cfg.allowed_ops.any (fun o => op == PyVal.vStr o)) then
      ["filters[" ++ toString idx ++ "].op is not in allowed_ops"]
    else []
  let e3 ←
    if op == PyVal.vStr "between" then do
      let value ← pyGetAttrD cond "value" .vNone
      let good :=
        match value with
        | .vList [a, b] => a ≠ PyVal.vNone && b ≠ PyVal.vNone
        | _ => false
      pure (if good then []
        else ["filters[" ++ toString idx ++
              "].value for 'between' must be 2-element list/tuple"])
    else pure []
  let e4 := if op == PyVal.vStr "like" && !cfg.allow_fuzzy then
      ["fuzzy search 'like' is disabled by rules.yaml"] else []
  pure (e1 ++ e2 ++ e3 ++ e4)

/-- The per-index filter loop of `IRSchemaValidator.validate`. -/
def validateFilters (cfg : IRSchemaCfg) (conds : List PyVal) (idx : Nat) :
    Except String (List String) :=
  match conds with
  | [] => .ok []
  | c :: rest => do
    let here ← validate_single_filter cfg c idx
    let tail ← validateFilters cfg rest (idx + 1)
    pure (here ++ tail)

/-- Embedding of `IRSchemaValidator.validate`: accumulate all structural errors;
`ok` is true iff none were found.  Attribute/type errors raised on
non-dict payloads are `Except.error`. -/
def IRSchemaValidator.validate (cfg : IRSchemaCfg) (ir : PyVal) :
    Except String SchemaValidationResult := do
  let e1 ← requiredFieldErrors cfg.required_fields ir
  let query_type ← pyGetAttrD ir "query_type" .vNone
  let e2 :=
    if cfg.query_type_enum ≠ [] ∧
        !(cfg.query_type_enum.any (fun v => query_type == PyVal.vStr v)) then
      ["invalid query_type"]
    else []
  let filters ← pyGetAttrD ir "filters" (.vList [])
  let e3 ←
    match filters with
    | .vList conds => do
      let lenErr := if (conds.length : Int) > cfg.max_filters then
          ["too many filters"] else []
      let fErrs ← validateFilters cfg conds 0
      pure (lenErr ++ fErrs)
    | _ => pure ["filters must be a list"]
  let errors := e1 ++ e2 ++ e3
  pure { ok := errors.isEmpty, errors := errors }

/-- Modelled from the spec: default validator configuration — the spec's
required `UnifiedIR` members (§3), `max_filters` 5, the §3 operator
whitelist, fuzzy search disabled (§3: `like` may be policy-disabled,
code default `False`), and `query_type ∈ ENUM[rag, sql, hybrid]`. -/
def defaultIRSchemaCfg : IRSchemaCfg where
  required_fields := ["query_type", "entity_type", "fallback_enabled",
    "original_query", "structured_conditions", "unstructured_keywords"]
  max_filters := 5
  allowed_ops := ["=", ">", "<", ">=", "<=", "between", "like"]
  allow_fuzzy := false
  query_type_enum := ["rag", "sql", "hybrid"]

end Validators

section IrGenerator

/-!
Embedding of `src/preprocess/llm_ir_generator.py`.

The external generator (`llm_client`) is a parameter returning
`Except String String` (the call may raise), and `json.loads` is the
parameter `parseJson : String → Except String PyVal`; both kinds of
failure are caught inside `_build_llm_ir`'s `try` block.
-/

/-- The `UnifiedQueryIR` dataclass.  Field values keep their dynamic
`PyVal` type: the Python dataclass performs no runtime type checking,
only keyword matching, when constructed via `UnifiedQueryIR(**ir)`. -/
structure UnifiedQueryIR where
  query_type : PyVal
  entity_type : PyVal
  fallback_enabled : PyVal
  original_query : PyVal
  structured_conditions : PyVal
  unstructured_keywords : PyVal
  table : PyVal := .vNone
  filters : PyVal := .vNone
  select : PyVal := .vNone
deriving Repr, DecidableEq

/-- The keyword names accepted by `UnifiedQueryIR.__init__`. -/
def unifiedIRFieldNames : List String :=
  ["query_type", "entity_type", "fallback_enabled", "original_query",
   "structured_conditions", "unstructured_keywords", "table", "filters",
   "select"]

/-- Embedding of `UnifiedQueryIR(**ir)`: keyword expansion of a dynamic value into the
dataclass constructor.  A non-mapping argument, an unexpected keyword, or
a missing required keyword raises `TypeError` — exactly the Python
semantics of `**`-calling a dataclass `__init__`. -/
def mkUnifiedQueryIR (ir : PyVal) : Except String UnifiedQueryIR :=
  match ir with
  | .vDict l =>
    if l.any (fun p => !(unifiedIRFieldNames.contains p.1)) then
      .error "TypeError: unexpected keyword argument"
    else
      match pyDictGet l "query_type", pyDictGet l "entity_type",
          pyDictGet l "fallback_enabled", pyDictGet l "original_query",
          pyDictGet l "structured_conditions",
          pyDictGet l "unstructured_keywords" with
      | some qt, some et, some fe, some oq, some sc, some uk =>
        .ok { query_type := qt, entity_type := et, fallback_enabled := fe,
              original_query := oq, structured_conditions := sc,
              unstructured_keywords := uk,
              table := (pyDictGet l "table").getD .vNone,
              filters := (pyDictGet l "filters").getD .vNone,
              select := (pyDictGet l "select").getD .vNone }
      | _, _, _, _, _, _ =>
        .error "TypeError: missing required positional argument"
  | _ => .error "TypeError: argument after ** must be a mapping"

/-- Python `query.replace("，", " ").split()`: whitespace tokenization
with empty tokens dropped. -/
def splitKeywords (query : String) : List String :=
  ((query.replace "，" " ").split Char.isWhitespace).filter (fun w => w ≠ "")

/-- Embedding of `LlmIRGenerator._build_rule_based_ir`: the always-available rule path. -/
def build_rule_based_ir (query : String) (rr : RouteResult) : PyVal :=
  let qt := rr.route
  let entity :=
    match rr.entity_type with
    | some s => if s = "" then "unknown" else s
    | none => "unknown"
  let structured : List (String × PyVal) :=
    (if strIn "公司" query || strIn "企业" query then
      [("company_name", PyVal.vStr query)] else []) ++
    (if strIn "项目" query || strIn "招标" query || strIn "中标" query then
      [("project_name", PyVal.vStr query)] else [])
  let base : List (String × PyVal) :=
    [("query_type", .vStr qt),
     ("entity_type", .vStr entity),
     ("fallback_enabled", .vBool true),
     ("original_query", .vStr query),
     ("structured_conditions", .vDict structured),
     ("unstructured_keywords", .vList ((splitKeywords query).map PyVal.vStr))]
  if qt = "sql" ∨ qt = "hybrid" then
    .vDict (base ++ [("table", .vStr "tender_project"),
                     ("select", .vList [.vStr "*"]),
                     ("filters", .vList [])])
  else
    .vDict base

/-- The IR-generation prompt built by `LlmIRGenerator._build_llm_ir`. -/
def irPrompt (query : String) (rr : RouteResult) : String :=
  "你是招投标行业智能助手的解析模块，请将用户问题转换为统一的 JSON IR。\n" ++
  "字段要求：\n- query_type: 'rag' | 'sql' | 'hybrid'\n" ++
  "- entity_type: 'policy' | 'opinion' | 'company' | 'tender' | 'material' | 'price'\n" ++
  "- fallback_enabled: bool\n- original_query: str\n" ++
  "- structured_conditions: 对公司/项目/金额/时间等显式条件进行结构化\n" ++
  "- unstructured_keywords: 用于 RAG 的关键词列表\n" ++
  "若 query_type 属于 'sql' 或 'hybrid'，还需补充：\n" ++
  "- table: 目标主表，如 'tender_project'、'company_master' 等\n" ++
  "- select: 需要返回的字段列表\n" ++
  "- filters: 由 \x7bfield, op, value\x7d 组成的列表，op 只允许：=, >, <, >=, <=, between, like\n\n" ++
  "用户问题：" ++ query ++ "\n" ++
  "Router 预判：query_type=" ++ rr.route ++ ", entity_type=" ++
  (match rr.entity_type with | some s => s | none => "None") ++ "\n" ++
  "请直接输出 JSON，不要包含额外说明。"

/-- Embedding of `LlmIRGenerator._build_llm_ir`: call the generator, parse its reply;
on any call or parse failure fall back to the rule path.  The `try`
block spans only the call and the parse. -/
def build_llm_ir (parseJson : String → Except String PyVal)
    (client : String → Except String String) (query : String)
    (rr : RouteResult) : PyVal :=
  match client (irPrompt query rr) with
  | .error _ => build_rule_based_ir query rr
  | .ok raw =>
    match parseJson raw with
    | .error _ => build_rule_based_ir query rr
    | .ok ir => ir

/-- Embedding of `LlmIRGenerator.generate`: route, produce the IR dict (rule path or
generator path), run the structural and business validators (their
results are only logged, but exceptions they raise propagate), then
construct `UnifiedQueryIR(**ir)`. -/
def LlmIRGenerator.generate (llm_client : Option (String → Except String String))
    (parseJson : String → Except String PyVal) (scfg : IRSchemaCfg)
    (amount_min amount_max : ℚ) (intentMap : String → Option String)
    (query : String) : Except String UnifiedQueryIR := do
  let rr := QueryRouter.route none intentMap query
  let ir :=
    match llm_client with
    | none => build_rule_based_ir query rr
    | some c => build_llm_ir parseJson c query rr
  let _ ← IRSchemaValidator.validate scfg ir
  let _ ← BusinessValidator.validate_ir amount_min amount_max ir
  mkUnifiedQueryIR ir

end IrGenerator

section Counting

/-!
Counting of substring occurrences in the synthesized SQL text, used to
state the placeholder / LIMIT / WHERE invariants of the spec.
-/

/-- Number of positions of `l` at which `pat` occurs as a substring
(`l.count(pat)` for the self-overlap-free patterns used here). -/
def countOcc (pat : List Char) : List Char → Nat
  | [] => if pat.isPrefixOf ([] : List Char) then 1 else 0
  | c :: rest => (if pat.isPrefixOf (c :: rest) then 1 else 0) + countOcc pat rest

/-- The positional-placeholder marker `%s` of the pymysql paramstyle. -/
def psPat : List Char := ['%', 's']

/-- The row-limit keyword. -/
def limitPat : List Char := ['L', 'I', 'M', 'I', 'T']

/-- The WHERE keyword. -/
def wherePat : List Char := ['W', 'H', 'E', 'R', 'E']

theorem countOcc_cons_ne {p c : Char} (ps l : List Char) (h : c ≠ p) :
    countOcc (p :: ps) (c :: l) = countOcc (p :: ps) l := by
  have hb : (p == c) = false := by
    simpa using fun hcp => h hcp.symm
  simp [countOcc, List.isPrefixOf, hb]

theorem countOcc_append_skip {p : Char} (ps : List Char) {xs : List Char}
    (ys : List Char) (h : ∀ c ∈ xs, c ≠ p) :
    countOcc (p :: ps) (xs ++ ys) = countOcc (p :: ps) ys := by
  induction xs with
  | nil => rfl
  | cons c xs ih =>
    rw [List.cons_append, countOcc_cons_ne ps _ (h c (by simp))]
    exact ih fun d hd => h d (by simp [hd])

theorem countOcc_eq_zero {p : Char} (ps : List Char) {l : List Char}
    (h : ∀ c ∈ l, c ≠ p) : countOcc (p :: ps) l = 0 := by
  have h2 := @countOcc_append_skip p ps l ([] : List Char) h
  simpa using h2

theorem count_ps_between (r : List Char) :
    countOcc psPat (("` BETWEEN %s AND %s").data ++ r) =
      2 + countOcc psPat r := by
  simp only [show ("` BETWEEN %s AND %s" : String).data =
    ['`', ' ', 'B', 'E', 'T', 'W', 'E', 'E', 'N', ' ', '%', 's', ' ', 'A',
     'N', 'D', ' ', '%', 's'] from rfl]
  simp [countOcc, List.isPrefixOf, psPat]
  omega

theorem count_ps_like (r : List Char) :
    countOcc psPat (("` LIKE %s").data ++ r) = 1 + countOcc psPat r := by
  simp only [show ("` LIKE %s" : String).data =
    ['`', ' ', 'L', 'I', 'K', 'E', ' ', '%', 's'] from rfl]
  simp [countOcc, List.isPrefixOf, psPat]

theorem count_ps_op (r : List Char) :
    countOcc psPat ((" %s").data ++ r) = 1 + countOcc psPat r := by
  simp only [show (" %s" : String).data = [' ', '%', 's'] from rfl]
  simp [countOcc, List.isPrefixOf, psPat]

theorem count_limit_select (r : List Char) :
    countOcc limitPat (("SELECT ").data ++ r) = countOcc limitPat r := by
  simp only [show ("SELECT " : String).data =
    ['S', 'E', 'L', 'E', 'C', 'T', ' '] from rfl]
  simp [countOcc, List.isPrefixOf, limitPat]

theorem count_limit_like (r : List Char) :
    countOcc limitPat (("` LIKE %s").data ++ r) = countOcc limitPat r := by
  simp only [show ("` LIKE %s" : String).data =
    ['`', ' ', 'L', 'I', 'K', 'E', ' ', '%', 's'] from rfl]
  simp [countOcc, List.isPrefixOf, limitPat]

theorem count_limit_limit (r : List Char) :
    countOcc limitPat ((" LIMIT ").data ++ r) = 1 + countOcc limitPat r := by
  simp only [show (" LIMIT " : String).data =
    [' ', 'L', 'I', 'M', 'I', 'T', ' '] from rfl]
  simp [countOcc, List.isPrefixOf, limitPat]

/-- Characters allowed in configured identifiers (column names, table
names, operators): anything that is neither `%` nor an uppercase ASCII
letter.  Every SQL keyword emitted by the builder is uppercase and the
placeholder marker starts with `%`, so identifiers made of such
characters can neither create nor destroy an occurrence of `%s`,
`LIMIT` or `WHERE`. -/
def sqlCleanChar (c : Char) : Bool := !(c = '%') && !c.isUpper

/-- All characters of a string are `sqlCleanChar`. -/
def sqlCleanStr (s : String) : Bool := s.data.all sqlCleanChar

theorem sqlCleanStr_ne {s : String} (h : sqlCleanStr s = true) {p : Char}
    (hp : p = '%' ∨ p.isUpper = true) : ∀ c ∈ s.data, c ≠ p := by
  intro c hc hcp
  have hall := List.all_eq_true.mp h c hc
  subst hcp
  rcases hp with hp | hp
  · rw [hp] at hall; simp [sqlCleanChar] at hall
  · simp [sqlCleanChar, hp] at hall

theorem safeStr_forall {s : String}
    (h : ∀ c ∈ s.data, c ≠ '%' ∧ c ≠ 'L' ∧ c ≠ 'W') {p : Char}
    (hp : p = '%' ∨ p = 'L' ∨ p = 'W') : ∀ c ∈ s.data, c ≠ p := by
  intro c hc
  rcases hp with rfl | rfl | rfl
  · exact (h c hc).1
  · exact (h c hc).2.1
  · exact (h c hc).2.2

theorem pyJoin_chars {P : Char → Prop} (sep : String) (l : List String)
    (hsep : ∀ c ∈ sep.data, P c) (h : ∀ s ∈ l, ∀ c ∈ s.data, P c) :
    ∀ c ∈ (pyJoin sep l).data, P c := by
  induction l with
  | nil => intro c hc; simp [pyJoin] at hc
  | cons x xs ih =>
    cases xs with
    | nil => intro c hc; exact h x (by simp) c (by simpa [pyJoin] using hc)
    | cons y ys =>
      intro c hc
      rw [show pyJoin sep (x :: y :: ys) = x ++ sep ++ pyJoin sep (y :: ys)
        from rfl, String.data_append, String.data_append] at hc
      rcases List.mem_append.mp hc with hc | hc
      · rcases List.mem_append.mp hc with hc | hc
        · exact h x (by simp) c hc
        · exact hsep c hc
      · exact ih (fun s hs => h s (by simp [hs])) c hc

theorem digitChar_isDigit : ∀ k : Nat, k < 10 → (Nat.digitChar k).isDigit = true := by
  decide

theorem toDigitsCore_chars :
    ∀ (fuel n : Nat) (acc : List Char), (∀ c ∈ acc, c.isDigit = true) →
      ∀ c ∈ Nat.toDigitsCore 10 fuel n acc, c.isDigit = true := by
  intro fuel
  induction fuel with
  | zero =>
    intro n acc hacc c hc
    rw [Nat.toDigitsCore] at hc
    exact hacc c hc
  | succ fuel ih =>
    intro n acc hacc c hc
    rw [Nat.toDigitsCore] at hc
    by_cases hz : n / 10 = 0
    · simp only [hz, if_pos rfl] at hc
      rcases List.mem_cons.mp hc with rfl | hc
      · exact digitChar_isDigit _ (Nat.mod_lt _ (by omega))
      · exact hacc c hc
    · simp only [if_neg hz] at hc
      refine ih (n / 10) _ ?_ c hc
      intro d hd
      rcases List.mem_cons.mp hd with rfl | hd
      · exact digitChar_isDigit _ (Nat.mod_lt _ (by omega))
      · exact hacc d hd

theorem natRepr_chars (n : Nat) : ∀ c ∈ (Nat.repr n).data, c.isDigit = true := by
  intro c hc
  exact toDigitsCore_chars (n + 1) n [] (by simp) c hc

theorem digit_safe {c : Char} (h : c.isDigit = true) :
    c ≠ '%' ∧ c ≠ 'L' ∧ c ≠ 'W' := by
  refine ⟨?_, ?_, ?_⟩ <;> rintro rfl <;> simp [Char.isDigit] at h

theorem intRepr_safe (i : Int) :
    ∀ c ∈ (toString i).data, c ≠ '%' ∧ c ≠ 'L' ∧ c ≠ 'W' := by
  intro c hc
  cases i with
  | ofNat m =>
    exact digit_safe (natRepr_chars m c hc)
  | negSucc m =>
    rw [show toString (Int.negSucc m) = "-" ++ Nat.repr (m + 1) from rfl,
      String.data_append] at hc
    rcases List.mem_append.mp hc with hc | hc
    · simp only [show ("-" : String).data = ['-'] from rfl, List.mem_singleton] at hc
      subst hc; refine ⟨by decide, by decide, by decide⟩
    · exact digit_safe (natRepr_chars (m + 1) c hc)

theorem limStr_safe (maxL : Int) (v : PyVal) :
    ∀ c ∈ (clampLimit maxL v).pyStr.data, c ≠ '%' ∧ c ≠ 'L' ∧ c ≠ 'W' := by
  have hInt : ∀ n : Int, ∀ c ∈ (PyVal.vInt n).pyStr.data,
      c ≠ '%' ∧ c ≠ 'L' ∧ c ≠ 'W' := by
    intro n c hc
    exact intRepr_safe n c (by simpa [PyVal.pyStr] using hc)
  have hBool : ∀ b : Bool, ∀ c ∈ (PyVal.vBool b).pyStr.data,
      c ≠ '%' ∧ c ≠ 'L' ∧ c ≠ 'W' := by
    intro b c hc
    cases b <;> simp [PyVal.pyStr] at hc <;>
      rcases hc with rfl | rfl | rfl | rfl | rfl <;>
      exact ⟨by decide, by decide, by decide⟩
  unfold clampLimit
  cases v with
  | vInt n =>
    simp only [PyVal.toIntLike]
    split
    · exact hInt maxL
    · split
      · exact hInt n
      · exact hInt maxL
  | vBool b =>
    cases b
    · simp only [PyVal.toIntLike]
      norm_num
      exact hInt maxL
    · simp only [PyVal.toIntLike]
      norm_num
      split
      · exact hBool true
      · exact hInt maxL
  | vNone => exact hInt maxL
  | vStr s => exact hInt maxL
  | vList l => exact hInt maxL
  | vDict l => exact hInt maxL

end Counting

section BuildLemmas

/-!
Characterization of `IR2SQL.build`'s filter loop and of the shape of the
synthesized statement.
-/

theorem buildLoop_go (ao : List String) (ts : TableSchema) :
    ∀ (fs : List FilterCondition) (acc : List String × List PyVal),
      List.foldl (fun acc cond =>
        match processFilter ao ts cond with
        | none => acc
        | some (s, vs) => (acc.1 ++ [s], acc.2 ++ vs)) acc fs =
      (acc.1 ++ (fs.filterMap (processFilter ao ts)).map Prod.fst,
       acc.2 ++ ((fs.filterMap (processFilter ao ts)).map Prod.snd).flatten) := by
  intro fs
  induction fs with
  | nil => intro acc; simp
  | cons c fs ih =>
    intro acc
    simp only [List.foldl_cons, List.filterMap_cons]
    cases h : processFilter ao ts c with
    | none =>
      simp only [h]
      exact ih acc
    | some pr =>
      obtain ⟨s, vs⟩ := pr
      simp only [h]
      rw [ih]
      simp [List.append_assoc]

theorem buildLoop_eq (ao : List String) (ts : TableSchema)
    (fs : List FilterCondition) :
    buildLoop ao ts fs =
      ((fs.filterMap (processFilter ao ts)).map Prod.fst,
       ((fs.filterMap (processFilter ao ts)).map Prod.snd).flatten) := by
  unfold buildLoop
  rw [buildLoop_go]
  simp

theorem processFilter_some {ao : List String} {ts : TableSchema}
    {c : FilterCondition} {s : String} {vs : List PyVal}
    (h : processFilter ao ts c = some (s, vs)) :
    ∃ f op, c.field = some f ∧ c.op = some op ∧ ¬(f = "" ∨ op = "") ∧
      ao.contains op = true ∧ ts.has_column f = true ∧
      ((op = "between" ∧ ∃ a b, c.value = .vList [a, b] ∧
          s = "`" ++ f ++ "` BETWEEN %s AND %s" ∧ vs = [a, b]) ∨
       (op ≠ "between" ∧ op = "like" ∧
          s = "`" ++ f ++ "` LIKE %s" ∧ vs = [.vStr c.value.pyStr]) ∨
       (op ≠ "between" ∧ op ≠ "like" ∧
          s = "`" ++ f ++ "` " ++ op ++ " %s" ∧ vs = [c.value])) := by
  cases hf : c.field with
  | none => simp [processFilter, hf] at h
  | some f =>
    cases ho : c.op with
    | none => simp [processFilter, hf, ho] at h
    | some op =>
      refine ⟨f, op, rfl, rfl, ?_⟩
      simp only [processFilter, hf, ho] at h
      split_ifs at h with h1 h2 h3 h4 h5
      · refine ⟨h1, by simpa using h2, by simpa using h3, ?_⟩
        left
        refine ⟨h4, ?_⟩
        split at h
        · rename_i x y z heq
          simp only [Option.some.injEq, Prod.mk.injEq] at h
          exact ⟨y, z, heq, h.1.symm, h.2.symm⟩
        · simp at h
      · refine ⟨h1, by simpa using h2, by simpa using h3, ?_⟩
        right; left
        simp only [Option.some.injEq, Prod.mk.injEq] at h
        exact ⟨h4, h5, h.1.symm, h.2.symm⟩
      · refine ⟨h1, by simpa using h2, by simpa using h3, ?_⟩
        right; right
        simp only [Option.some.injEq, Prod.mk.injEq] at h
        exact ⟨h4, h5, h.1.symm, h.2.symm⟩

end BuildLemmas

section BuildCounting

theorem countOcc_append_skip2 (pat : List Char) (p : Char)
    (hp : pat.head? = some p) {xs : List Char} (ys : List Char)
    (h : ∀ c ∈ xs, c ≠ p) :
    countOcc pat (xs ++ ys) = countOcc pat ys := by
  cases pat with
  | nil => simp at hp
  | cons q qs =>
    simp only [List.head?_cons, Option.some.injEq] at hp
    subst hp
    exact countOcc_append_skip qs ys h

theorem countOcc_eq_zero2 (pat : List Char) (p : Char)
    (hp : pat.head? = some p) {l : List Char} (h : ∀ c ∈ l, c ≠ p) :
    countOcc pat l = 0 := by
  cases pat with
  | nil => simp at hp
  | cons q qs =>
    simp only [List.head?_cons, Option.some.injEq] at hp
    subst hp
    exact countOcc_eq_zero qs h

theorem contains_mem {l : List String} {a : String} (h : l.contains a = true) :
    a ∈ l := by
  simpa using h

theorem has_column_mem {ts : TableSchema} {f : String}
    (h : ts.has_column f = true) : f ∈ ts.columns := by
  simpa [TableSchema.has_column] using h

theorem processFilter_count_ps {ao : List String} {ts : TableSchema}
    (hops : ∀ o ∈ ao, sqlCleanStr o = true)
    (hcols : ∀ col ∈ ts.columns, sqlCleanStr col = true)
    {c : FilterCondition} {s : String} {vs : List PyVal}
    (h : processFilter ao ts c = some (s, vs)) (r : List Char) :
    countOcc psPat (s.data ++ r) = vs.length + countOcc psPat r := by
  obtain ⟨f, op, hf, ho, hne, hcont, hcol, hbr⟩ := processFilter_some h
  have hfclean := hcols f (has_column_mem hcol)
  have hfne : ∀ ch ∈ f.data, ch ≠ '%' := sqlCleanStr_ne hfclean (Or.inl rfl)
  have hb1 : ∀ ch ∈ ("`" : String).data, ch ≠ '%' := by decide
  have hb2 : ∀ ch ∈ ("` " : String).data, ch ≠ '%' := by decide
  rcases hbr with ⟨hb, a, b, hv, hs, hvs⟩ | ⟨hnb, hl, hs, hvs⟩ | ⟨hnb, hnl, hs, hvs⟩
  · subst hs hvs
    simp only [String.data_append, List.append_assoc]
    rw [countOcc_append_skip2 psPat '%' rfl _ hb1,
      countOcc_append_skip2 psPat '%' rfl _ hfne, count_ps_between]
    simp
  · subst hs hvs
    simp only [String.data_append, List.append_assoc]
    rw [countOcc_append_skip2 psPat '%' rfl _ hb1,
      countOcc_append_skip2 psPat '%' rfl _ hfne, count_ps_like]
    simp
  · subst hs hvs
    have hoclean := hops op (contains_mem hcont)
    have hone : ∀ ch ∈ op.data, ch ≠ '%' := sqlCleanStr_ne hoclean (Or.inl rfl)
    simp only [String.data_append, List.append_assoc]
    rw [countOcc_append_skip2 psPat '%' rfl _ hb1,
      countOcc_append_skip2 psPat '%' rfl _ hfne,
      countOcc_append_skip2 psPat '%' rfl _ hb2,
      countOcc_append_skip2 psPat '%' rfl _ hone, count_ps_op]
    simp

theorem processFilter_count_limit {ao : List String} {ts : TableSchema}
    (hops : ∀ o ∈ ao, sqlCleanStr o = true)
    (hcols : ∀ col ∈ ts.columns, sqlCleanStr col = true)
    {c : FilterCondition} {s : String} {vs : List PyVal}
    (h : processFilter ao ts c = some (s, vs)) (r : List Char) :
    countOcc limitPat (s.data ++ r) = countOcc limitPat r := by
  obtain ⟨f, op, hf, ho, hne, hcont, hcol, hbr⟩ := processFilter_some h
  have hfclean := hcols f (has_column_mem hcol)
  have hfne : ∀ ch ∈ f.data, ch ≠ 'L' :=
    sqlCleanStr_ne hfclean (Or.inr (by decide))
  have hb1 : ∀ ch ∈ ("`" : String).data, ch ≠ 'L' := by decide
  have hb2 : ∀ ch ∈ ("` " : String).data, ch ≠ 'L' := by decide
  have hb3 : ∀ ch ∈ ("` BETWEEN %s AND %s" : String).data, ch ≠ 'L' := by decide
  have hb4 : ∀ ch ∈ (" %s" : String).data, ch ≠ 'L' := by decide
  rcases hbr with ⟨hb, a, b, hv, hs, hvs⟩ | ⟨hnb, hl, hs, hvs⟩ | ⟨hnb, hnl, hs, hvs⟩
  · subst hs
    simp only [String.data_append, List.append_assoc]
    rw [countOcc_append_skip2 limitPat 'L' rfl _ hb1,
      countOcc_append_skip2 limitPat 'L' rfl _ hfne,
      countOcc_append_skip2 limitPat 'L' rfl _ hb3]
  · subst hs
    simp only [String.data_append, List.append_assoc]
    rw [countOcc_append_skip2 limitPat 'L' rfl _ hb1,
      countOcc_append_skip2 limitPat 'L' rfl _ hfne, count_limit_like]
  · subst hs
    have hoclean := hops op (contains_mem hcont)
    have hone : ∀ ch ∈ op.data, ch ≠ 'L' :=
      sqlCleanStr_ne hoclean (Or.inr (by decide))
    simp only [String.data_append, List.append_assoc]
    rw [countOcc_append_skip2 limitPat 'L' rfl _ hb1,
      countOcc_append_skip2 limitPat 'L' rfl _ hfne,
      countOcc_append_skip2 limitPat 'L' rfl _ hb2,
      countOcc_append_skip2 limitPat 'L' rfl _ hone,
      countOcc_append_skip2 limitPat 'L' rfl _ hb4]

theorem parts_count_ps (l : List (String × List PyVal))
    (h : ∀ pr ∈ l, ∀ r, countOcc psPat (pr.1.data ++ r) =
      pr.2.length + countOcc psPat r) :
    ∀ r, countOcc psPat ((pyJoin " AND " (l.map Prod.fst)).data ++ r) =
      ((l.map Prod.snd).flatten).length + countOcc psPat r := by
  induction l with
  | nil => intro r; simp [pyJoin]
  | cons pr l ih =>
    cases l with
    | nil =>
      intro r
      simpa [pyJoin] using h pr (by simp) r
    | cons q t =>
      intro r
      have hand : ∀ ch ∈ (" AND " : String).data, ch ≠ '%' := by decide
      rw [show pyJoin " AND " (((pr :: q :: t)).map Prod.fst) =
        pr.1 ++ " AND " ++ pyJoin " AND " ((q :: t).map Prod.fst) from rfl,
        String.data_append, String.data_append, List.append_assoc,
        List.append_assoc]
      rw [h pr (by simp) _]
      rw [countOcc_append_skip2 psPat '%' rfl _ hand]
      rw [ih (fun pr hpr => h pr (by simp [hpr]))]
      simp [Nat.add_assoc]

theorem parts_count_limit (l : List (String × List PyVal))
    (h : ∀ pr ∈ l, ∀ r, countOcc limitPat (pr.1.data ++ r) =
      countOcc limitPat r) :
    ∀ r, countOcc limitPat ((pyJoin " AND " (l.map Prod.fst)).data ++ r) =
      countOcc limitPat r := by
  induction l with
  | nil => intro r; simp [pyJoin]
  | cons pr l ih =>
    cases l with
    | nil =>
      intro r
      simpa [pyJoin] using h pr (by simp) r
    | cons q t =>
      intro r
      have hand : ∀ ch ∈ (" AND " : String).data, ch ≠ 'L' := by decide
      rw [show pyJoin " AND " (((pr :: q :: t)).map Prod.fst) =
        pr.1 ++ " AND " ++ pyJoin " AND " ((q :: t).map Prod.fst) from rfl,
        String.data_append, String.data_append, List.append_assoc,
        List.append_assoc]
      rw [h pr (by simp) _]
      rw [countOcc_append_skip2 limitPat 'L' rfl _ hand]
      exact ih (fun pr hpr => h pr (by simp [hpr])) r

theorem colsSql_safe {ts : TableSchema}
    (hcols : ∀ col ∈ ts.columns, sqlCleanStr col = true)
    {sel : List String} {cols_sql : String}
    (h : colsSqlOf ts sel = .ok cols_sql) :
    ∀ c ∈ cols_sql.data, c ≠ '%' ∧ c ≠ 'L' ∧ c ≠ 'W' := by
  unfold colsSqlOf at h
  split_ifs at h with h1 h2
  · injection h with h'
    subst h'
    intro c hc
    simp only [show ("*" : String).data = ['*'] from rfl,
      List.mem_singleton] at hc
    subst hc
    exact ⟨by decide, by decide, by decide⟩
  · injection h with h'
    subst h'
    have hmem : ∀ col ∈ sel, ts.has_column col = true := by
      intro col hcolmem
      by_contra hnc
      have : col ∈ sel.filter (fun c => ts.has_column c = false) := by
        simp only [List.mem_filter, hcolmem, true_and, decide_eq_true_eq]
        simpa using hnc
      rw [h2] at this
      simp at this
    refine pyJoin_chars _ _ ?_ ?_
    · intro c hc
      have hcs : c = ',' ∨ c = ' ' := by
        simpa [show (", " : String).data = [',', ' '] from rfl] using hc
      rcases hcs with rfl | rfl
      · exact ⟨by decide, by decide, by decide⟩
      · exact ⟨by decide, by decide, by decide⟩
    · intro s hs c hc
      rcases List.mem_map.mp hs with ⟨col, hcolmem, rfl⟩
      rw [String.data_append, String.data_append] at hc
      have hclean := hcols col (has_column_mem (hmem col hcolmem))
      rcases List.mem_append.mp hc with hc | hc
      · rcases List.mem_append.mp hc with hc | hc
        · simp only [show ("`" : String).data = ['`'] from rfl,
            List.mem_singleton] at hc
          subst hc
          exact ⟨by decide, by decide, by decide⟩
        · exact ⟨sqlCleanStr_ne hclean (Or.inl rfl) c hc,
            sqlCleanStr_ne hclean (Or.inr (by decide)) c hc,
            sqlCleanStr_ne hclean (Or.inr (by decide)) c hc⟩
      · simp only [show ("`" : String).data = ['`'] from rfl,
          List.mem_singleton] at hc
        subst hc
        exact ⟨by decide, by decide, by decide⟩

theorem clampLimit_toIntLike (maxL : Int) (v : PyVal) :
    ∃ n, (clampLimit maxL v).toIntLike = some n ∧ n ≤ maxL := by
  unfold clampLimit
  cases hv : v.toIntLike with
  | none => exact ⟨maxL, rfl, le_refl _⟩
  | some n =>
    by_cases h1 : n ≤ 0
    · simp only [if_pos h1]
      exact ⟨maxL, rfl, le_refl _⟩
    · by_cases h2 : n ≤ maxL
      · simp only [if_neg h1, if_pos h2]
        exact ⟨n, hv, h2⟩
      · simp only [if_neg h1, if_neg h2]
        exact ⟨maxL, rfl, le_refl _⟩

theorem build_ok_shape {cfg : IR2SQL} {ir : IR} {r : SqlBuildResult}
    (h : IR2SQL.build cfg ir = .ok r) :
    ∃ t ts cols_sql,
      ir.table = some t ∧ ¬t = "" ∧ cfg.schema.get t = some ts ∧
      colsSqlOf ts (selectColsOf ir.select) = .ok cols_sql ∧
      r.sql = "SELECT " ++ cols_sql ++ " FROM " ++ t ++
        (if (buildLoop cfg.allowed_ops ts ir.filters).1 = [] then ""
         else " WHERE " ++ pyJoin " AND " (buildLoop cfg.allowed_ops ts ir.filters).1) ++
        " LIMIT " ++ (clampLimit cfg.max_limit ir.limit).pyStr ∧
      r.params = (buildLoop cfg.allowed_ops ts ir.filters).2 := by
  unfold IR2SQL.build at h
  split at h
  · cases h
  · rename_i t ht
    split at h
    · cases h
    · rename_i h0
      split at h
      · cases h
      · rename_i ts hg
        split at h
        · cases h
        · rename_i cols_sql hc
          simp only [Except.ok.injEq] at h
          refine ⟨t, ts, cols_sql, ht, h0, hg, hc, ?_, ?_⟩ <;> rw [← h]

end BuildCounting

section SqlClaims

/-- A two-element Python sequence (`isinstance(value, (list, tuple)) and
len(value) == 2`). -/
def isPair : PyVal → Bool
  | .vList [_, _] => true
  | _ => false

/-- Two filters with the same field, operator and — for `between` — the
two-element shape of their values; only the carried values may differ. -/
def sameShape (c₁ c₂ : FilterCondition) : Bool :=
  c₁.field == c₂.field && c₁.op == c₂.op &&
  (!(c₁.op == some "between") || (isPair c₁.value && isPair c₂.value))

/-- Pointwise `sameShape` over two filter lists. -/
def sameShapes : List FilterCondition → List FilterCondition → Bool
  | [], [] => true
  | c₁ :: t₁, c₂ :: t₂ => sameShape c₁ c₂ && sameShapes t₁ t₂
  | _, _ => false

/-- The parameter values a single filter must contribute, in the spec's
words: a skipped filter contributes nothing, a surviving `between` filter
its two pair elements in original order, a surviving `like` filter the
string form of its value, and any other surviving filter its value. -/
def specContribution (allowed : List String) (ts : TableSchema)
    (c : FilterCondition) : List PyVal :=
  match c.field, c.op with
  | some f, some op =>
    if f = "" ∨ op = "" ∨ allowed.contains op = false ∨
        ts.has_column f = false then []
    else if op = "between" then
      match c.value with
      | .vList [a, b] => [a, b]
      | _ => []
    else if op = "like" then [.vStr c.value.pyStr]
    else [c.value]
  | _, _ => []

/-- The full parameter list demanded by the spec: the concatenation of the
per-filter contributions, in filter order (emission order). -/
def specParams (allowed : List String) (ts : TableSchema)
    (fs : List FilterCondition) : List PyVal :=
  fs.flatMap (specContribution allowed ts)

theorem specContribution_eq (ao : List String) (ts : TableSchema)
    (c : FilterCondition) :
    specContribution ao ts c =
      (match processFilter ao ts c with | none => [] | some pr => pr.2) := by
  cases hf : c.field with
  | none => simp [specContribution, processFilter, hf]
  | some f =>
    cases ho : c.op with
    | none => simp [specContribution, processFilter, hf, ho]
    | some op =>
      simp only [specContribution, processFilter, hf, ho]
      by_cases h1 : f = "" ∨ op = ""
      · have hl : f = "" ∨ op = "" ∨ ao.contains op = false ∨
            ts.has_column f = false := by tauto
        rw [if_pos hl, if_pos h1]
      · by_cases h2 : ao.contains op = false
        · have hl : f = "" ∨ op = "" ∨ ao.contains op = false ∨
              ts.has_column f = false := by tauto
          rw [if_pos hl, if_neg h1, if_pos h2]
        · by_cases h3 : ts.has_column f = false
          · have hl : f = "" ∨ op = "" ∨ ao.contains op = false ∨
                ts.has_column f = false := by tauto
            rw [if_pos hl, if_neg h1, if_neg h2, if_pos h3]
          · have hl : ¬(f = "" ∨ op = "" ∨ ao.contains op = false ∨
                ts.has_column f = false) := by tauto
            rw [if_neg hl, if_neg h1, if_neg h2, if_neg h3]
            by_cases h4 : op = "between"
            · rw [if_pos h4, if_pos h4]
              cases hv : c.value with
              | vList l =>
                cases l with
                | nil => rfl
                | cons a t =>
                  cases t with
                  | nil => rfl
                  | cons b t2 =>
                    cases t2 with
                    | nil => rfl
                    | cons x t3 => rfl
              | vNone => rfl
              | vBool b => rfl
              | vInt n => rfl
              | vStr s => rfl
              | vDict l => rfl
            · rw [if_neg h4, if_neg h4]
              by_cases h5 : op = "like"
              · rw [if_pos h5, if_pos h5]
              · rw [if_neg h5, if_neg h5]

theorem buildLoop_fst (ao : List String) (ts : TableSchema)
    (fs : List FilterCondition) :
    (buildLoop ao ts fs).1 =
      (fs.filterMap (processFilter ao ts)).map Prod.fst := by
  rw [buildLoop_eq]

theorem buildLoop_snd (ao : List String) (ts : TableSchema)
    (fs : List FilterCondition) :
    (buildLoop ao ts fs).2 =
      ((fs.filterMap (processFilter ao ts)).map Prod.snd).flatten := by
  rw [buildLoop_eq]

theorem buildLoop_params_spec (ao : List String) (ts : TableSchema)
    (fs : List FilterCondition) :
    (buildLoop ao ts fs).2 = specParams ao ts fs := by
  rw [buildLoop_snd]
  induction fs with
  | nil => rfl
  | cons c fs ih =>
    simp only [List.filterMap_cons, specParams, List.flatMap_cons]
    rw [specContribution_eq]
    cases h : processFilter ao ts c with
    | none =>
      simpa [specParams] using ih
    | some pr =>
      simp only [List.map_cons, List.flatten_cons]
      rw [ih]
      rfl

/-- Sanity of a configuration: operators, table names and column names
contain neither `%` nor uppercase ASCII letters, so identifiers cannot
collide with the emitted SQL keywords or the placeholder marker.  The
spec-modelled `defaultIR2SQL` satisfies this by computation. -/
def cleanCfg (cfg : IR2SQL) : Bool :=
  cfg.allowed_ops.all sqlCleanStr &&
  List.all cfg.schema (fun p => sqlCleanStr p.1 && p.2.columns.all sqlCleanStr)

theorem cleanCfg_ops {cfg : IR2SQL} (h : cleanCfg cfg = true) :
    ∀ o ∈ cfg.allowed_ops, sqlCleanStr o = true := by
  intro o ho
  have h' : cfg.allowed_ops.all sqlCleanStr = true := by
    have := h
    unfold cleanCfg at this
    exact (Bool.and_eq_true _ _ ▸ this).1
  exact List.all_eq_true.mp h' o ho

theorem dbGet_mem {s : DBSchemaT} {t : String} {ts : TableSchema}
    (h : s.get t = some ts) : ∃ p, p ∈ s ∧ p.1 = t ∧ p.2 = ts := by
  unfold DBSchemaT.get at h
  cases hf : List.find? (fun p => p.1 == t) s with
  | none => rw [hf] at h; cases h
  | some p =>
    rw [hf] at h
    simp only [Option.some.injEq] at h
    refine ⟨p, List.mem_of_find?_eq_some hf, ?_, h⟩
    have := List.find?_some hf
    simpa using this

theorem cleanCfg_table {cfg : IR2SQL} (h : cleanCfg cfg = true) {t : String}
    {ts : TableSchema} (hg : cfg.schema.get t = some ts) :
    sqlCleanStr t = true ∧ ∀ col ∈ ts.columns, sqlCleanStr col = true := by
  obtain ⟨p, hp, hp1, hp2⟩ := dbGet_mem hg
  have h2 : List.all cfg.schema
      (fun p => sqlCleanStr p.1 && p.2.columns.all sqlCleanStr) = true := by
    have := h
    unfold cleanCfg at this
    exact (Bool.and_eq_true _ _ ▸ this).2
  have h3 := List.all_eq_true.mp h2 p hp
  have h4 := Bool.and_eq_true _ _ ▸ h3
  subst hp1 hp2
  exact ⟨h4.1, List.all_eq_true.mp h4.2⟩

end SqlClaims

section C7Proof

theorem filterMap_pf_count_ps {ao : List String} {ts : TableSchema}
    (hops : ∀ o ∈ ao, sqlCleanStr o = true)
    (hcols : ∀ col ∈ ts.columns, sqlCleanStr col = true)
    (fs : List FilterCondition) :
    ∀ pr ∈ fs.filterMap (processFilter ao ts), ∀ r,
      countOcc psPat (pr.1.data ++ r) = pr.2.length + countOcc psPat r := by
  intro pr hpr r
  obtain ⟨c, _, hc⟩ := List.mem_filterMap.mp hpr
  obtain ⟨s, vs⟩ := pr
  exact processFilter_count_ps hops hcols hc r

theorem filterMap_pf_count_limit {ao : List String} {ts : TableSchema}
    (hops : ∀ o ∈ ao, sqlCleanStr o = true)
    (hcols : ∀ col ∈ ts.columns, sqlCleanStr col = true)
    (fs : List FilterCondition) :
    ∀ pr ∈ fs.filterMap (processFilter ao ts), ∀ r,
      countOcc limitPat (pr.1.data ++ r) = countOcc limitPat r := by
  intro pr hpr r
  obtain ⟨c, _, hc⟩ := List.mem_filterMap.mp hpr
  obtain ⟨s, vs⟩ := pr
  exact processFilter_count_limit hops hcols hc r

/-- C7: for every IR on which `IR2SQL.build` succeeds (over any
configuration whose identifiers are clean, `defaultIR2SQL` included),
the emitted statement is well-formed: the number of `%s` placeholders in
the query text equals the length of the parameter list, the parameters
are exactly the per-filter contributions in emission order (a surviving
`between` filter contributing two placeholders and its two pair elements
in original order), the text contains exactly one `LIMIT` clause, the
LIMIT value never exceeds the configured ceiling, and an empty filter
list yields a statement without a WHERE clause. -/
theorem build_wellformed {cfg : IR2SQL} (hclean : cleanCfg cfg = true)
    {ir : IR} {r : SqlBuildResult} (h : IR2SQL.build cfg ir = .ok r) :
    countOcc psPat r.sql.data = r.params.length ∧
    countOcc limitPat r.sql.data = 1 ∧
    (∃ head lv, r.sql = head ++ " LIMIT " ++ PyVal.pyStr lv ∧
      ∃ n, lv.toIntLike = some n ∧ n ≤ cfg.max_limit) ∧
    (ir.filters = [] → countOcc wherePat r.sql.data = 0) ∧
    (∀ t ts, ir.table = some t → cfg.schema.get t = some ts →
      r.params = specParams cfg.allowed_ops ts ir.filters) := by
  obtain ⟨t, ts, cols_sql, ht, h0, hg, hc, hsql, hparams⟩ := build_ok_shape h
  have hops := cleanCfg_ops hclean
  obtain ⟨htclean, hcols⟩ := cleanCfg_table hclean hg
  have hcolsafe := colsSql_safe hcols hc
  have hlimsafe := limStr_safe cfg.max_limit ir.limit
  have hsel1 : ∀ c ∈ ("SELECT " : String).data, c ≠ '%' := by decide
  have hfrom1 : ∀ c ∈ (" FROM " : String).data, c ≠ '%' := by decide
  have hwhere1 : ∀ c ∈ (" WHERE " : String).data, c ≠ '%' := by decide
  have hlimit1 : ∀ c ∈ (" LIMIT " : String).data, c ≠ '%' := by decide
  have hfrom2 : ∀ c ∈ (" FROM " : String).data, c ≠ 'L' := by decide
  have hwhere2 : ∀ c ∈ (" WHERE " : String).data, c ≠ 'L' := by decide
  have hsel3 : ∀ c ∈ ("SELECT " : String).data, c ≠ 'W' := by decide
  have hfrom3 : ∀ c ∈ (" FROM " : String).data, c ≠ 'W' := by decide
  have hlimit3 : ∀ c ∈ (" LIMIT " : String).data, c ≠ 'W' := by decide
  have hcols1 : ∀ c ∈ cols_sql.data, c ≠ '%' :=
    safeStr_forall hcolsafe (Or.inl rfl)
  have hcols2 : ∀ c ∈ cols_sql.data, c ≠ 'L' :=
    safeStr_forall hcolsafe (Or.inr (Or.inl rfl))
  have hcols3 : ∀ c ∈ cols_sql.data, c ≠ 'W' :=
    safeStr_forall hcolsafe (Or.inr (Or.inr rfl))
  have ht1 : ∀ c ∈ t.data, c ≠ '%' := sqlCleanStr_ne htclean (Or.inl rfl)
  have ht2 : ∀ c ∈ t.data, c ≠ 'L' := sqlCleanStr_ne htclean (Or.inr (by decide))
  have ht3 : ∀ c ∈ t.data, c ≠ 'W' := sqlCleanStr_ne htclean (Or.inr (by decide))
  have hlim1 : ∀ c ∈ (clampLimit cfg.max_limit ir.limit).pyStr.data, c ≠ '%' :=
    safeStr_forall hlimsafe (Or.inl rfl)
  have hlim2 : ∀ c ∈ (clampLimit cfg.max_limit ir.limit).pyStr.data, c ≠ 'L' :=
    safeStr_forall hlimsafe (Or.inr (Or.inl rfl))
  have hlim3 : ∀ c ∈ (clampLimit cfg.max_limit ir.limit).pyStr.data, c ≠ 'W' :=
    safeStr_forall hlimsafe (Or.inr (Or.inr rfl))
  refine ⟨?_, ?_, ?_, ?_, ?_⟩
  · -- placeholder count = parameter count
    rw [hsql, hparams]
    by_cases hp : (buildLoop cfg.allowed_ops ts ir.filters).1 = []
    · rw [if_pos hp]
      have hp2 : (buildLoop cfg.allowed_ops ts ir.filters).2 = [] := by
        rw [buildLoop_snd]
        rw [buildLoop_fst] at hp
        rw [List.map_eq_nil_iff.mp hp]
        rfl
      rw [hp2]
      simp only [String.data_append, List.append_assoc,
        show ("" : String).data = [] from rfl, List.nil_append]
      rw [countOcc_append_skip2 psPat '%' rfl _ hsel1,
        countOcc_append_skip2 psPat '%' rfl _ hcols1,
        countOcc_append_skip2 psPat '%' rfl _ hfrom1,
        countOcc_append_skip2 psPat '%' rfl _ ht1,
        countOcc_append_skip2 psPat '%' rfl _ hlimit1]
      simpa using countOcc_eq_zero2 psPat '%' rfl hlim1
    · rw [if_neg hp]
      simp only [String.data_append, List.append_assoc]
      rw [countOcc_append_skip2 psPat '%' rfl _ hsel1,
        countOcc_append_skip2 psPat '%' rfl _ hcols1,
        countOcc_append_skip2 psPat '%' rfl _ hfrom1,
        countOcc_append_skip2 psPat '%' rfl _ ht1,
        countOcc_append_skip2 psPat '%' rfl _ hwhere1]
      rw [buildLoop_fst, buildLoop_snd]
      rw [parts_count_ps _ (filterMap_pf_count_ps hops hcols ir.filters)]
      rw [countOcc_append_skip2 psPat '%' rfl _ hlimit1]
      rw [countOcc_eq_zero2 psPat '%' rfl hlim1]
      simp
  · -- exactly one LIMIT keyword
    rw [hsql]
    by_cases hp : (buildLoop cfg.allowed_ops ts ir.filters).1 = []
    · rw [if_pos hp]
      simp only [String.data_append, List.append_assoc,
        show ("" : String).data = [] from rfl, List.nil_append]
      rw [count_limit_select,
        countOcc_append_skip2 limitPat 'L' rfl _ hcols2,
        countOcc_append_skip2 limitPat 'L' rfl _ hfrom2,
        countOcc_append_skip2 limitPat 'L' rfl _ ht2,
        count_limit_limit]
      rw [countOcc_eq_zero2 limitPat 'L' rfl hlim2]
    · rw [if_neg hp]
      simp only [String.data_append, List.append_assoc]
      rw [count_limit_select,
        countOcc_append_skip2 limitPat 'L' rfl _ hcols2,
        countOcc_append_skip2 limitPat 'L' rfl _ hfrom2,
        countOcc_append_skip2 limitPat 'L' rfl _ ht2,
        countOcc_append_skip2 limitPat 'L' rfl _ hwhere2]
      rw [buildLoop_fst]
      rw [parts_count_limit _ (filterMap_pf_count_limit hops hcols ir.filters)]
      rw [count_limit_limit]
      rw [countOcc_eq_zero2 limitPat 'L' rfl hlim2]
  · -- a single trailing LIMIT clause whose value obeys the ceiling
    refine ⟨"SELECT " ++ cols_sql ++ " FROM " ++ t ++
      (if (buildLoop cfg.allowed_ops ts ir.filters).1 = [] then ""
       else " WHERE " ++ pyJoin " AND " (buildLoop cfg.allowed_ops ts ir.filters).1),
      clampLimit cfg.max_limit ir.limit, ?_, clampLimit_toIntLike _ _⟩
    rw [hsql]
  · -- empty filters: no WHERE keyword
    intro hfs
    have hp : (buildLoop cfg.allowed_ops ts ir.filters).1 = [] := by
      rw [buildLoop_fst, hfs]
      rfl
    rw [hsql, if_pos hp]
    refine countOcc_eq_zero2 wherePat 'W' rfl ?_
    intro c hc
    simp only [String.data_append, List.append_assoc,
      show ("" : String).data = [] from rfl, List.nil_append] at hc
    rcases List.mem_append.mp hc with hc | hc
    · exact hsel3 c hc
    · rcases List.mem_append.mp hc with hc | hc
      · exact hcols3 c hc
      · rcases List.mem_append.mp hc with hc | hc
        · exact hfrom3 c hc
        · rcases List.mem_append.mp hc with hc | hc
          · exact ht3 c hc
          · rcases List.mem_append.mp hc with hc | hc
            · exact hlimit3 c hc
            · exact hlim3 c hc
  · -- parameters in emission order
    intro t' ts' ht' hg'
    rw [ht] at ht'
    injection ht' with ht'
    subst ht'
    rw [hg] at hg'
    injection hg' with hg'
    subst hg'
    rw [hparams, buildLoop_params_spec]

end C7Proof

section C7Witness

/-- Concrete filter list for the well-formedness witness: a surviving
`between` filter, a surviving `like` filter, a filter on an unknown
column and a filter with a disallowed operator. -/
def wFilters : List FilterCondition :=
  [{ field := some "amount", op := some "between",
     value := .vList [.vInt 1, .vInt 2] },
   { field := some "status", op := some "like", value := .vStr "开" },
   { field := some "bogus", op := some ">=", value := .vInt 3 },
   { field := some "amount", op := some "drop", value := .vInt 4 }]

/-- The statement synthesized from `wFilters`. -/
def wSql : String :=
  "SELECT * FROM tender_project WHERE `amount` BETWEEN %s AND %s AND `status` LIKE %s LIMIT 7"

/-- The parameters synthesized from `wFilters`. -/
def wParams : List PyVal := [.vInt 1, .vInt 2, .vStr "开"]

/-- Witness for C7 at the spec-modelled default configuration. -/
theorem build_wellformed_witness :
    cleanCfg defaultIR2SQL = true ∧
    IR2SQL.build defaultIR2SQL
      { table := some "tender_project", select := some ["*"],
        filters := wFilters, limit := .vInt 7 } = .ok ⟨wSql, wParams⟩ ∧
    (countOcc psPat wSql.data = wParams.length ∧
     countOcc limitPat wSql.data = 1 ∧
     (∃ head lv, wSql = head ++ " LIMIT " ++ PyVal.pyStr lv ∧
        ∃ n, lv.toIntLike = some n ∧ n ≤ defaultIR2SQL.max_limit) ∧
     (wFilters = [] → countOcc wherePat wSql.data = 0) ∧
     (∀ t ts, some "tender_project" = some t →
        defaultIR2SQL.schema.get t = some ts →
        wParams = specParams defaultIR2SQL.allowed_ops ts wFilters)) := by
  have hb : IR2SQL.build defaultIR2SQL
      { table := some "tender_project", select := some ["*"],
        filters := wFilters, limit := .vInt 7 } =
      .ok ⟨wSql, wParams⟩ := rfl
  exact ⟨by decide, hb, build_wellformed (by decide) hb⟩

end C7Witness

section C1Proof

theorem isPair_iff (v : PyVal) : isPair v = true ↔ ∃ a b, v = .vList [a, b] := by
  cases v with
  | vList l =>
    cases l with
    | nil => simp [isPair]
    | cons a t =>
      cases t with
      | nil => simp [isPair]
      | cons b t2 =>
        cases t2 with
        | nil => simp [isPair]
        | cons x t3 => simp [isPair]
  | vNone => simp [isPair]
  | vBool b => simp [isPair]
  | vInt n => simp [isPair]
  | vStr s => simp [isPair]
  | vDict l => simp [isPair]

theorem processFilter_fst_congr (ao : List String) (ts : TableSchema)
    {c₁ c₂ : FilterCondition} (h : sameShape c₁ c₂ = true) :
    (processFilter ao ts c₁).map Prod.fst =
      (processFilter ao ts c₂).map Prod.fst := by
  have h' := h
  simp only [sameShape, Bool.and_eq_true, beq_iff_eq, Bool.or_eq_true,
    Bool.not_eq_true] at h'
  obtain ⟨⟨hfe, hoe⟩, hb⟩ := h'
  unfold processFilter
  rw [hfe, hoe]
  cases hcf : c₂.field with
  | none => rfl
  | some f =>
    cases hco : c₂.op with
    | none => rfl
    | some op =>
      dsimp only
      split_ifs with h1 h2 h3 h4
      · rfl
      · rfl
      · rfl
      · -- between: both values are two-element pairs
        rcases hb with hb | hb
        · exfalso
          rw [hoe, hco, h4] at hb
          simp at hb
        · obtain ⟨a₁, b₁, hv₁⟩ := (isPair_iff _).mp hb.1
          obtain ⟨a₂, b₂, hv₂⟩ := (isPair_iff _).mp hb.2
          rw [hv₁, hv₂]
          rfl
      · rfl
      · rfl

theorem filterMap_fst_congr (ao : List String) (ts : TableSchema) :
    ∀ {fs₁ fs₂ : List FilterCondition}, sameShapes fs₁ fs₂ = true →
      (fs₁.filterMap (processFilter ao ts)).map Prod.fst =
        (fs₂.filterMap (processFilter ao ts)).map Prod.fst := by
  intro fs₁
  induction fs₁ with
  | nil =>
    intro fs₂ h
    cases fs₂ with
    | nil => rfl
    | cons c t => simp [sameShapes] at h
  | cons c₁ t₁ ih =>
    intro fs₂ h
    cases fs₂ with
    | nil => simp [sameShapes] at h
    | cons c₂ t₂ =>
      have h2 := Bool.and_eq_true _ _ ▸ (h : sameShapes (c₁ :: t₁) (c₂ :: t₂) = true)
      have hhead := processFilter_fst_congr ao ts h2.1
      have htail := ih h2.2
      simp only [List.filterMap_cons]
      cases hp1 : processFilter ao ts c₁ with
      | none =>
        cases hp2 : processFilter ao ts c₂ with
        | none => exact htail
        | some pr₂ =>
          rw [hp1, hp2] at hhead
          simp at hhead
      | some pr₁ =>
        cases hp2 : processFilter ao ts c₂ with
        | none =>
          rw [hp1, hp2] at hhead
          simp at hhead
        | some pr₂ =>
          rw [hp1, hp2] at hhead
          simp only [Option.map_some', Option.some.injEq] at hhead
          simp only [List.map_cons, htail, hhead]

/-- C1: no filter value is interpolated into the SQL text — two IRs that
agree on table, select and limit and whose filters agree in shape (same
fields and operators, `between` values kept two-element) produce the very
same statement text (and the same build error, if any); every value is
carried only in the positional parameter list, in emission order. -/
theorem build_value_independent {cfg : IR2SQL} {ir₁ ir₂ : IR}
    (htab : ir₁.table = ir₂.table) (hsel : ir₁.select = ir₂.select)
    (hlim : ir₁.limit = ir₂.limit)
    (hf : sameShapes ir₁.filters ir₂.filters = true) :
    (IR2SQL.build cfg ir₁).map SqlBuildResult.sql =
      (IR2SQL.build cfg ir₂).map SqlBuildResult.sql ∧
    (∀ r t ts, IR2SQL.build cfg ir₁ = .ok r → ir₁.table = some t →
      cfg.schema.get t = some ts →
      r.params = specParams cfg.allowed_ops ts ir₁.filters) := by
  constructor
  · unfold IR2SQL.build
    rw [← htab, ← hsel, ← hlim]
    cases h1 : ir₁.table with
    | none => rfl
    | some t =>
      dsimp only
      by_cases h0 : t = ""
      · subst h0
        rfl
      · simp only [if_neg h0]
        cases h2 : cfg.schema.get t with
        | none => rfl
        | some ts =>
          dsimp only
          cases h3 : colsSqlOf ts (selectColsOf ir₁.select) with
          | error e => rfl
          | ok cols =>
            dsimp only
            have hparts : (buildLoop cfg.allowed_ops ts ir₁.filters).1 =
                (buildLoop cfg.allowed_ops ts ir₂.filters).1 := by
              rw [buildLoop_fst, buildLoop_fst,
                filterMap_fst_congr cfg.allowed_ops ts hf]
            simp [Except.map, hparts]
  · intro r t ts hok ht hg
    obtain ⟨t', ts', cols_sql, ht', h0, hg', hc, hsql, hparams⟩ :=
      build_ok_shape hok
    rw [ht] at ht'
    injection ht' with ht'
    subst ht'
    rw [hg] at hg'
    injection hg' with hg'
    subst hg'
    rw [hparams, buildLoop_params_spec]

end C1Proof

section C1Witness

/-- The `tender_project` table of the spec-modelled registry. -/
def tsTender : TableSchema :=
  { name := "tender_project",
    columns := ["project_id", "project_name", "company_name", "amount",
                "publish_date", "status"],
    primary_key := some "project_id" }

/-- Witness for C1: two IRs that differ only in their filter values give
the same SQL text, and the parameters are the emitted values in order. -/
theorem build_value_independent_witness :
    sameShapes
      [{ field := some "amount", op := some ">=", value := .vInt 1000000 },
       { field := some "amount", op := some "between",
         value := .vList [.vInt 1, .vInt 2] }]
      [{ field := some "amount", op := some ">=", value := .vInt 5 },
       { field := some "amount", op := some "between",
         value := .vList [.vInt 7, .vInt 9] }] = true ∧
    (IR2SQL.build defaultIR2SQL
      { table := some "tender_project", select := some ["*"],
        filters := [{ field := some "amount", op := some ">=",
                      value := .vInt 1000000 },
                    { field := some "amount", op := some "between",
                      value := .vList [.vInt 1, .vInt 2] }],
        limit := .vNone }).map SqlBuildResult.sql =
    (IR2SQL.build defaultIR2SQL
      { table := some "tender_project", select := some ["*"],
        filters := [{ field := some "amount", op := some ">=",
                      value := .vInt 5 },
                    { field := some "amount", op := some "between",
                      value := .vList [.vInt 7, .vInt 9] }],
        limit := .vNone }).map SqlBuildResult.sql ∧
    [PyVal.vInt 1000000, PyVal.vInt 1, PyVal.vInt 2] =
      specParams defaultIR2SQL.allowed_ops tsTender
        [{ field := some "amount", op := some ">=", value := .vInt 1000000 },
         { field := some "amount", op := some "between",
           value := .vList [.vInt 1, .vInt 2] }] := by
  have h := @build_value_independent defaultIR2SQL
    { table := some "tender_project", select := some ["*"],
      filters := [{ field := some "amount", op := some ">=",
                    value := .vInt 1000000 },
                  { field := some "amount", op := some "between",
                    value := .vList [.vInt 1, .vInt 2] }],
      limit := .vNone }
    { table := some "tender_project", select := some ["*"],
      filters := [{ field := some "amount", op := some ">=",
                    value := .vInt 5 },
                  { field := some "amount", op := some "between",
                    value := .vList [.vInt 7, .vInt 9] }],
      limit := .vNone }
    rfl rfl rfl (by decide)
  refine ⟨by decide, h.1, ?_⟩
  have h2 := h.2 ⟨"SELECT * FROM tender_project WHERE `amount` >= %s AND `amount` BETWEEN %s AND %s LIMIT 100",
    [PyVal.vInt 1000000, PyVal.vInt 1, PyVal.vInt 2]⟩ "tender_project" tsTender rfl rfl rfl
  exact h2

end C1Witness

section C6Proof

theorem processFilter_none_of_bad {ao : List String} {ts : TableSchema}
    {c : FilterCondition}
    (h : (∃ o, c.op = some o ∧ ao.contains o = false) ∨
         (∃ f, c.field = some f ∧ ts.has_column f = false)) :
    processFilter ao ts c = none := by
  unfold processFilter
  cases hf : c.field with
  | none => rfl
  | some f =>
    cases ho : c.op with
    | none => rfl
    | some op =>
      dsimp only
      rcases h with ⟨o, hoo, hbad⟩ | ⟨f', hff, hbad⟩
      · rw [ho] at hoo
        injection hoo with hoo
        subst hoo
        by_cases h1 : f = "" ∨ op = ""
        · rw [if_pos h1]
        · rw [if_neg h1, if_pos hbad]
      · rw [hf] at hff
        injection hff with hff
        subst hff
        by_cases h1 : f = "" ∨ op = ""
        · rw [if_pos h1]
        · rw [if_neg h1]
          by_cases h2 : ao.contains op = false
          · rw [if_pos h2]
          · rw [if_neg h2, if_pos hbad]

theorem build_ok_of (cfg : IR2SQL) (ir : IR) {t : String} {ts : TableSchema}
    {cs : String} (ht : ir.table = some t) (h0 : ¬t = "")
    (hg : cfg.schema.get t = some ts)
    (hcs : colsSqlOf ts (selectColsOf ir.select) = .ok cs) :
    IR2SQL.build cfg ir =
      .ok { sql := "SELECT " ++ cs ++ " FROM " ++ t ++
              (if (buildLoop cfg.allowed_ops ts ir.filters).1 = [] then ""
               else " WHERE " ++
                 pyJoin " AND " (buildLoop cfg.allowed_ops ts ir.filters).1) ++
              " LIMIT " ++ (clampLimit cfg.max_limit ir.limit).pyStr,
            params := (buildLoop cfg.allowed_ops ts ir.filters).2 } := by
  unfold IR2SQL.build
  rw [ht]
  dsimp only
  rw [if_neg h0, hg]
  dsimp only
  rw [hcs]

/-- C6: whenever the IR's table resolves and the select list passes the
column check, `IR2SQL.build` succeeds; any filter whose operator is
outside the allowed set or whose field is not a column of the resolved
table is silently dropped — removing it from the filter list does not
change the build result at all, so it contributes neither WHERE text nor
parameters, while all other filters are still emitted. -/
theorem build_skips_invalid {cfg : IR2SQL} {ir : IR} {t : String}
    {ts : TableSchema} (ht : ir.table = some t) (h0 : ¬t = "")
    (hg : cfg.schema.get t = some ts)
    (hsel : ∃ cs, colsSqlOf ts (selectColsOf ir.select) = .ok cs) :
    (∃ r, IR2SQL.build cfg ir = .ok r) ∧
    (∀ pre c post, ir.filters = pre ++ c :: post →
      ((∃ o, c.op = some o ∧ cfg.allowed_ops.contains o = false) ∨
       (∃ f, c.field = some f ∧ ts.has_column f = false)) →
      IR2SQL.build cfg ir =
        IR2SQL.build cfg { ir with filters := pre ++ post }) := by
  obtain ⟨cs, hcs⟩ := hsel
  constructor
  · exact ⟨_, build_ok_of cfg ir ht h0 hg hcs⟩
  · intro pre c post hfs hbad
    have hpf := @processFilter_none_of_bad cfg.allowed_ops ts c hbad
    have hbl : buildLoop cfg.allowed_ops ts ir.filters =
        buildLoop cfg.allowed_ops ts (pre ++ post) := by
      rw [buildLoop_eq, buildLoop_eq, hfs]
      simp [List.filterMap_append, List.filterMap_cons, hpf]
    rw [build_ok_of cfg ir ht h0 hg hcs,
      build_ok_of cfg { ir with filters := pre ++ post } ht h0 hg hcs]
    simp only [hbl]

/-- Witness for C6: a build containing one valid filter, one filter with
a disallowed operator and one filter on an unknown column succeeds, and
dropping the disallowed-operator filter leaves the result unchanged. -/
theorem build_skips_invalid_witness :
    (∃ r, IR2SQL.build defaultIR2SQL
      { table := some "tender_project", select := none,
        filters := [{ field := some "amount", op := some ">=",
                      value := .vInt 10 },
                    { field := some "amount", op := some "drop",
                      value := .vInt 4 }],
        limit := .vNone } = .ok r) ∧
    IR2SQL.build defaultIR2SQL
      { table := some "tender_project", select := none,
        filters := [{ field := some "amount", op := some ">=",
                      value := .vInt 10 },
                    { field := some "amount", op := some "drop",
                      value := .vInt 4 }],
        limit := .vNone } =
    IR2SQL.build defaultIR2SQL
      { table := some "tender_project", select := none,
        filters := [{ field := some "amount", op := some ">=",
                      value := .vInt 10 }],
        limit := .vNone } := by
  have h := @build_skips_invalid defaultIR2SQL
    { table := some "tender_project", select := none,
      filters := [{ field := some "amount", op := some ">=",
                    value := .vInt 10 },
                  { field := some "amount", op := some "drop",
                    value := .vInt 4 }],
      limit := .vNone }
    "tender_project" tsTender rfl (by decide) rfl ⟨"*", rfl⟩
  refine ⟨h.1, ?_⟩
  exact h.2 [{ field := some "amount", op := some ">=", value := .vInt 10 }]
    { field := some "amount", op := some "drop", value := .vInt 4 } [] rfl
    (Or.inl ⟨"drop", rfl, by decide⟩)

end C6Proof

section C5Proof

/-- C5 counterexample: on the §8 example IR the synthesizer emits the
pymysql placeholder `%s`, not the `?` the spec's example shows. -/
theorem c5_counterexample :
    IR2SQL.build defaultIR2SQL
      { table := some "tender_project", select := some ["*"],
        filters := [{ field := some "amount", op := some ">=",
                      value := .vInt 1000000 }], limit := .vNone } =
      .ok { sql := "SELECT * FROM tender_project WHERE `amount` >= %s LIMIT 100",
            params := [.vInt 1000000] } ∧
    ("SELECT * FROM tender_project WHERE `amount` >= %s LIMIT 100" ≠
     "SELECT * FROM tender_project WHERE `amount` >= ? LIMIT 100") :=
  ⟨rfl, by decide⟩

/-- C5 amended: given `table="tender_project"`, `select=["*"]`, a single
`amount >= 1000000` filter and no limit, with ceiling 100, the builder
produces exactly `SELECT * FROM tender_project WHERE `amount` >= %s
LIMIT 100` with parameter list `[1000000]`. -/
theorem c5_build_example :
    IR2SQL.build defaultIR2SQL
      { table := some "tender_project", select := some ["*"],
        filters := [{ field := some "amount", op := some ">=",
                      value := .vInt 1000000 }], limit := .vNone } =
      .ok { sql := "SELECT * FROM tender_project WHERE `amount` >= %s LIMIT 100",
            params := [.vInt 1000000] } := rfl

end C5Proof

section RouterClaims

/-- Python `k in query.lower()`, the containment test used by
`_rule_based_route`. -/
def hasKw (q k : String) : Bool := strIn k (pyLower q)

/-- C3 counterexample: the query `招标政策` contains a tender keyword
(`招标`) and a policy/subsidy keyword (`政策`) and no sentiment/risk
keyword, yet the rule router returns the policy route (`rag`), not the
hybrid route, because the policy branch is checked first. -/
theorem c3_counterexample :
    hasKw "招标政策" "招标" = true ∧
    hasKw "招标政策" "政策" = true ∧
    (["舆情", "口碑", "负面", "风险", "投诉", "舆论"].all
      (fun k => !(hasKw "招标政策" k))) = true ∧
    rule_based_route "招标政策" = ("policy_query", some "policy", "rag") ∧
    rule_based_route "招标政策" ≠ ("hybrid_query", some "tender", "hybrid") := by
  decide

/-- C3 amended: a query that contains a tender/bid keyword and one of the
subsidy keywords `补贴`/`优惠`, while containing none of the keywords of
the earlier policy branch (`政策`, `扶持`, `规范`, `办法`, `通知`,
`条例`) and none of the sentiment/risk keywords, is routed to
`hybrid` / `hybrid_query` / `tender`. -/
theorem c3_hybrid_route {q : String}
    (htender : hasKw q "招标" = true ∨ hasKw q "中标" = true ∨
      hasKw q "投标" = true ∨ hasKw q "项目" = true ∨ hasKw q "标段" = true)
    (hsub : hasKw q "补贴" = true ∨ hasKw q "优惠" = true)
    (hp1 : hasKw q "政策" = false) (hp2 : hasKw q "扶持" = false)
    (hp3 : hasKw q "规范" = false) (hp4 : hasKw q "办法" = false)
    (hp5 : hasKw q "通知" = false) (hp6 : hasKw q "条例" = false)
    (ho1 : hasKw q "舆情" = false) (ho2 : hasKw q "口碑" = false)
    (ho3 : hasKw q "负面" = false) (ho4 : hasKw q "风险" = false)
    (ho5 : hasKw q "投诉" = false) (ho6 : hasKw q "舆论" = false) :
    rule_based_route q = ("hybrid_query", some "tender", "hybrid") := by
  simp only [hasKw] at htender hsub hp1 hp2 hp3 hp4 hp5 hp6 ho1 ho2 ho3 ho4 ho5 ho6
  unfold rule_based_route
  simp only [List.any_cons, List.any_nil, hp1, hp2, hp3, hp4, hp5, hp6,
    ho1, ho2, ho3, ho4, ho5, ho6, Bool.or_false, Bool.false_or, if_false,
    Bool.or_eq_true]
  rcases htender with h | h | h | h | h <;> rcases hsub with hs | hs <;>
    simp [h, hs]

/-- Witness for C3 (amended): the query `招标补贴`. -/
theorem c3_hybrid_route_witness :
    hasKw "招标补贴" "招标" = true ∧ hasKw "招标补贴" "补贴" = true ∧
    hasKw "招标补贴" "政策" = false ∧
    rule_based_route "招标补贴" = ("hybrid_query", some "tender", "hybrid") :=
  ⟨by decide, by decide, by decide,
    c3_hybrid_route (Or.inl (by decide)) (Or.inl (by decide)) (by decide)
      (by decide) (by decide) (by decide) (by decide) (by decide) (by decide)
      (by decide) (by decide) (by decide) (by decide) (by decide)⟩

theorem rule_based_route_cases (q : String) :
    (rule_based_route q).2.2 = "rag" ∨ (rule_based_route q).2.2 = "sql" ∨
      (rule_based_route q).2.2 = "hybrid" := by
  unfold rule_based_route
  dsimp only
  split_ifs <;> simp

/-- C10: the rule path never yields the `other` route, so
`QueryRouter.route` always returns one of `rag`/`sql`/`hybrid` and its
result does not depend on the optional external classifier — the
classifier branch (guarded by `route == "other"`) is unreachable. -/
theorem route_classifier_unreachable (q : String)
    (intentMap : String → Option String)
    (cls₁ cls₂ : Option (String → Option String)) :
    QueryRouter.route cls₁ intentMap q = QueryRouter.route cls₂ intentMap q ∧
    ((QueryRouter.route cls₁ intentMap q).route = "rag" ∨
     (QueryRouter.route cls₁ intentMap q).route = "sql" ∨
     (QueryRouter.route cls₁ intentMap q).route = "hybrid") := by
  have hcases := rule_based_route_cases q
  have hro : ¬((rule_based_route q).2.2 = "other") := by
    rcases hcases with h | h | h <;> rw [h] <;> decide
  have hroute : ∀ cls, QueryRouter.route cls intentMap q =
      { route := (rule_based_route q).2.2, intent := (rule_based_route q).1,
        entity_type := (rule_based_route q).2.1 } := by
    intro cls
    unfold QueryRouter.route
    rcases hrr : rule_based_route q with ⟨i, e, ro⟩
    rw [hrr] at hro
    cases cls with
    | none => rfl
    | some f =>
      dsimp only
      rw [if_neg (by simpa using hro)]
  rw [hroute cls₁, hroute cls₂]
  refine ⟨rfl, ?_⟩
  simpa using hcases

end RouterClaims

section ConfidenceClaims

/-- Maximum of an optional score list: present iff the list is present
and non-empty (Python truthiness of the list). -/
def maxSub : Option (List ℚ) → Option ℚ
  | some (x :: xs) => some (listMax x xs)
  | _ => none

/-- The retrieval sub-score of the spec: the maximum of the retrieval
scores when the list is present and non-empty, absent otherwise. -/
def retrSub (i : ConfidenceInput) : Option ℚ := maxSub i.retriever_scores

/-- The re-rank sub-score of the spec. -/
def rerankSub (i : ConfidenceInput) : Option ℚ := maxSub i.reranker_scores

/-- The row-count sub-score of the spec: `min(1.0, max(0, count)/50)`
whenever a row count is supplied. -/
def rowsSub (i : ConfidenceInput) : Option ℚ :=
  match i.sql_row_count with
  | some rc => some (min 1 ((max 0 rc : Int) / (50 : ℚ)))
  | none => none

/-- Maximum of two optional sub-scores (absent operands are ignored). -/
def omaxQ : Option ℚ → Option ℚ → Option ℚ
  | none, b => b
  | some x, none => some x
  | some x, some y => some (max x y)

/-- The fused score demanded by the spec: the maximum over whichever
sub-scores are present, and `0.0` when none is present. -/
def specScore (i : ConfidenceInput) : ℚ :=
  (omaxQ (omaxQ (retrSub i) (rerankSub i)) (rowsSub i)).getD 0

theorem evaluate_score (th : ℚ) (i : ConfidenceInput) :
    (ConfidenceChecker.evaluate th i).score = specScore i := by
  obtain ⟨rs, ks, rc⟩ := i
  rcases rs with _ | ⟨_ | ⟨x, xs⟩⟩ <;> rcases ks with _ | ⟨_ | ⟨k, ks⟩⟩ <;>
    rcases rc with _ | rc <;>
    simp [ConfidenceChecker.evaluate, specScore, retrSub, rerankSub, maxSub,
      rowsSub, omaxQ, listMax, List.foldl_append]

/-- C4: `ConfidenceChecker.evaluate` returns exactly the spec's fused
score — the maximum over the present sub-scores (max of non-empty
retrieval scores, max of non-empty re-rank scores, and
`min(1, max(0, rows)/50)` when a row count is supplied), `0.0` when no
sub-score is present — and `is_confident` holds iff the score reaches
the configured threshold. -/
theorem evaluate_spec (th : ℚ) (i : ConfidenceInput) :
    (ConfidenceChecker.evaluate th i).score = specScore i ∧
    ((ConfidenceChecker.evaluate th i).is_confident = true ↔
      specScore i ≥ th) := by
  refine ⟨evaluate_score th i, ?_⟩
  have h : (ConfidenceChecker.evaluate th i).is_confident =
      decide (th ≤ (ConfidenceChecker.evaluate th i).score) := rfl
  rw [h, evaluate_score th i]
  simp [ge_iff_le]

/-- Pointwise `≤` on score lists of equal length. -/
def listLEb : List ℚ → List ℚ → Bool
  | [], [] => true
  | x :: xs, y :: ys => decide (x ≤ y) && listLEb xs ys
  | _, _ => false

/-- Pointwise `≤` on optional score lists with identical presence. -/
def optListLEb : Option (List ℚ) → Option (List ℚ) → Bool
  | none, none => true
  | some xs, some ys => listLEb xs ys
  | _, _ => false

/-- Input `i` is below `j` signal-for-signal: same presence everywhere, each
retrieval score, each re-rank score and the row count not decreased. -/
def ConfidenceLEb (i j : ConfidenceInput) : Bool :=
  optListLEb i.retriever_scores j.retriever_scores &&
  optListLEb i.reranker_scores j.reranker_scores &&
  (match i.sql_row_count, j.sql_row_count with
   | none, none => true
   | some a, some b => decide (a ≤ b)
   | _, _ => false)

theorem foldl_max_mono : ∀ (xs ys : List ℚ) (a b : ℚ), a ≤ b →
    listLEb xs ys = true → xs.foldl max a ≤ ys.foldl max b := by
  intro xs
  induction xs with
  | nil =>
    intro ys a b hab h
    cases ys with
    | nil => simpa using hab
    | cons y ys => simp [listLEb] at h
  | cons x xs ih =>
    intro ys a b hab h
    cases ys with
    | nil => simp [listLEb] at h
    | cons y ys =>
      have h2 := Bool.and_eq_true _ _ ▸ (h : listLEb (x :: xs) (y :: ys) = true)
      have hxy : x ≤ y := of_decide_eq_true h2.1
      exact ih ys (max a x) (max b y) (max_le_max hab hxy) h2.2

theorem maxSub_mono : ∀ {o₁ o₂ : Option (List ℚ)}, optListLEb o₁ o₂ = true →
    (maxSub o₁ = none ∧ maxSub o₂ = none) ∨
    (∃ x y, maxSub o₁ = some x ∧ maxSub o₂ = some y ∧ x ≤ y) := by
  intro o₁ o₂ h
  cases o₁ with
  | none =>
    cases o₂ with
    | none => exact Or.inl ⟨rfl, rfl⟩
    | some l => simp [optListLEb] at h
  | some l₁ =>
    cases o₂ with
    | none => simp [optListLEb] at h
    | some l₂ =>
      cases l₁ with
      | nil =>
        cases l₂ with
        | nil => exact Or.inl ⟨rfl, rfl⟩
        | cons y ys => simp [optListLEb, listLEb] at h
      | cons x xs =>
        cases l₂ with
        | nil => simp [optListLEb, listLEb] at h
        | cons y ys =>
          have h2 := Bool.and_eq_true _ _ ▸
            ((by simpa [optListLEb] using h) : listLEb (x :: xs) (y :: ys) = true)
          exact Or.inr ⟨listMax x xs, listMax y ys, rfl, rfl,
            foldl_max_mono xs ys x y (of_decide_eq_true h2.1) h2.2⟩

theorem rowsSub_mono {i j : ConfidenceInput}
    (h : (match i.sql_row_count, j.sql_row_count with
          | none, none => true
          | some a, some b => decide (a ≤ b)
          | _, _ => false) = true) :
    (rowsSub i = none ∧ rowsSub j = none) ∨
    (∃ x y, rowsSub i = some x ∧ rowsSub j = some y ∧ x ≤ y) := by
  cases hi : i.sql_row_count with
  | none =>
    cases hj : j.sql_row_count with
    | none => exact Or.inl ⟨by simp [rowsSub, hi], by simp [rowsSub, hj]⟩
    | some b => rw [hi, hj] at h; simp at h
  | some a =>
    cases hj : j.sql_row_count with
    | none => rw [hi, hj] at h; simp at h
    | some b =>
      rw [hi, hj] at h
      have hab : a ≤ b := of_decide_eq_true h
      have h1 : ((max 0 a : Int) : ℚ) ≤ ((max 0 b : Int) : ℚ) := by
        exact_mod_cast max_le_max (le_refl (0 : Int)) hab
      refine Or.inr ⟨min 1 ((max 0 a : Int) / (50 : ℚ)),
        min 1 ((max 0 b : Int) / (50 : ℚ)),
        by simp only [rowsSub, hi], by simp only [rowsSub, hj],
        min_le_min (le_refl 1) ?_⟩
      exact (div_le_div_iff_of_pos_right (by norm_num)).mpr h1

/-- C8: confidence fusion is monotonic — not decreasing any present
sub-signal (retrieval scores, re-rank scores, row count) while keeping
the same signals present never decreases the fused score. -/
theorem evaluate_monotone (th : ℚ) {i j : ConfidenceInput}
    (h : ConfidenceLEb i j = true) :
    (ConfidenceChecker.evaluate th i).score ≤
      (ConfidenceChecker.evaluate th j).score := by
  rw [evaluate_score th i, evaluate_score th j]
  have h3 := Bool.and_eq_true _ _ ▸ (h : ConfidenceLEb i j = true)
  have h12 := Bool.and_eq_true _ _ ▸ h3.1
  have hr := @maxSub_mono i.retriever_scores j.retriever_scores h12.1
  have hk := @maxSub_mono i.reranker_scores j.reranker_scores h12.2
  have hc := rowsSub_mono h3.2
  unfold specScore
  rcases hr with ⟨hr1, hr2⟩ | ⟨x₁, x₂, hr1, hr2, hrle⟩ <;>
    rcases hk with ⟨hk1, hk2⟩ | ⟨y₁, y₂, hk1, hk2, hkle⟩ <;>
    rcases hc with ⟨hc1, hc2⟩ | ⟨z₁, z₂, hc1, hc2, hzle⟩ <;>
    simp only [retrSub, rerankSub] at hr1 hr2 hk1 hk2 ⊢ <;>
    rw [hr1, hr2, hk1, hk2, hc1, hc2] <;>
    simp only [omaxQ, Option.getD_some, Option.getD_none] <;>
    first
      | exact le_rfl
      | exact hrle
      | exact hkle
      | exact hzle
      | exact max_le_max hrle hkle
      | exact max_le_max hrle hzle
      | exact max_le_max hkle hzle
      | exact max_le_max (max_le_max hrle hkle) hzle

/-- Witness for C8: raising the single retrieval score from 0 to 1 and
the row count from 10 to 20 does not decrease the fused score. -/
theorem evaluate_monotone_witness :
    ConfidenceLEb { retriever_scores := some [0], sql_row_count := some 10 }
      { retriever_scores := some [1], sql_row_count := some 20 } = true ∧
    (ConfidenceChecker.evaluate 1
      { retriever_scores := some [0], sql_row_count := some 10 }).score ≤
    (ConfidenceChecker.evaluate 1
      { retriever_scores := some [1], sql_row_count := some 20 }).score :=
  ⟨by decide, evaluate_monotone 1 (by decide)⟩

end ConfidenceClaims

section BusinessClaims

/-- C9 counterexample: an IR whose `amount_range.min` is the string
`"abc"` makes `validate_ir` raise a `TypeError` from the comparison
`min_v < self.amount_min` instead of returning a warnings-only result. -/
theorem c9_counterexample :
    BusinessValidator.validate_ir 0 1000000000
      (.vDict [("structured_conditions",
        .vDict [("amount_range", .vDict [("min", .vStr "abc")])])]) =
      .error "TypeError: unorderable types" := rfl

/-- A stored value that the amount comparisons accept: absent/None or a
number (`bool` counts as a number in Python). -/
def numOrNone (v : PyVal) : Bool := v == PyVal.vNone || v.toIntLike.isSome

/-- The amount_range hint is either not a dict (then it is ignored) or a
dict whose `min`/`max` entries are numeric or absent. -/
def amountRangeOk (ar : PyVal) : Bool :=
  match ar with
  | .vDict l =>
    numOrNone ((pyDictGet l "min").getD .vNone) &&
    numOrNone ((pyDictGet l "max").getD .vNone)
  | _ => true

/-- The IR is a dict whose `structured_conditions` (defaulting to `{}`)
is a dict with a well-typed `amount_range`. -/
def bizSafe (ir : PyVal) : Bool :=
  match ir with
  | .vDict l =>
    match (pyDictGet l "structured_conditions").getD (.vDict []) with
    | .vDict sc => amountRangeOk ((pyDictGet sc "amount_range").getD .vNone)
    | _ => false
  | _ => false

theorem except_bind_ok {α β : Type} (a : α) (f : α → Except String β) :
    (Except.ok a >>= f : Except String β) = f a := rfl

theorem toIntLike_isSome_cases {v : PyVal} (h : v.toIntLike.isSome = true) :
    (∃ n, v = PyVal.vInt n) ∨ (∃ b, v = PyVal.vBool b) := by
  cases v <;> simp [PyVal.toIntLike] at h ⊢

theorem pyLtQ_ok {v : PyVal} (h : v.toIntLike.isSome = true) (q : ℚ) :
    ∃ b, pyLtQ v q = .ok b := by
  obtain ⟨n, hn⟩ := Option.isSome_iff_exists.mp h
  exact ⟨_, by unfold pyLtQ; rw [hn]⟩

theorem pyGtQ_ok {v : PyVal} (h : v.toIntLike.isSome = true) (q : ℚ) :
    ∃ b, pyGtQ v q = .ok b := by
  obtain ⟨n, hn⟩ := Option.isSome_iff_exists.mp h
  exact ⟨_, by unfold pyGtQ; rw [hn]⟩

theorem pyGtVal_ok {a b : PyVal} (ha : a.toIntLike.isSome = true)
    (hb : b.toIntLike.isSome = true) : ∃ r, pyGtVal a b = .ok r := by
  rcases toIntLike_isSome_cases ha with ⟨m, rfl⟩ | ⟨m, rfl⟩ <;>
    rcases toIntLike_isSome_cases hb with ⟨n, rfl⟩ | ⟨n, rfl⟩ <;>
    exact ⟨_, rfl⟩

theorem numOrNone_branch {v : PyVal} (h : numOrNone v = true) :
    v = PyVal.vNone ∨ (v ≠ PyVal.vNone ∧ v.toIntLike.isSome = true) := by
  by_cases hv : v = PyVal.vNone
  · exact Or.inl hv
  · refine Or.inr ⟨hv, ?_⟩
    have h2 := Bool.or_eq_true _ _ ▸ (h : numOrNone v = true)
    rcases h2 with h2 | h2
    · exact absurd (by simpa using h2) hv
    · exact h2

theorem bind_ok_exists {α β : Type} {e : Except String α}
    {f : α → Except String β} (he : ∃ a, e = .ok a)
    (hf : ∀ a, ∃ b, f a = .ok b) : ∃ b, (e >>= f) = .ok b := by
  obtain ⟨a, ha⟩ := he
  obtain ⟨b, hb⟩ := hf a
  exact ⟨b, by rw [ha, except_bind_ok, hb]⟩

theorem amountMinWarning_ok {v : PyVal} (h : numOrNone v = true) (q : ℚ) :
    ∃ w, amountMinWarning q v = .ok w := by
  unfold amountMinWarning
  rcases numOrNone_branch h with hm | ⟨hm, hsome⟩
  · rw [if_neg (by simpa using hm)]
    exact ⟨_, rfl⟩
  · rw [if_pos hm]
    obtain ⟨b, hb⟩ := pyLtQ_ok hsome q
    rw [hb, except_bind_ok]
    exact ⟨_, rfl⟩

theorem amountMaxWarning_ok {v : PyVal} (h : numOrNone v = true) (q : ℚ) :
    ∃ w, amountMaxWarning q v = .ok w := by
  unfold amountMaxWarning
  rcases numOrNone_branch h with hm | ⟨hm, hsome⟩
  · rw [if_neg (by simpa using hm)]
    exact ⟨_, rfl⟩
  · rw [if_pos hm]
    obtain ⟨b, hb⟩ := pyGtQ_ok hsome q
    rw [hb, except_bind_ok]
    exact ⟨_, rfl⟩

theorem amountSwapWarning_ok {a b : PyVal} (ha : numOrNone a = true)
    (hb : numOrNone b = true) : ∃ w, amountSwapWarning a b = .ok w := by
  unfold amountSwapWarning
  by_cases hc : a ≠ PyVal.vNone ∧ b ≠ PyVal.vNone
  · rw [if_pos hc]
    rcases numOrNone_branch ha with hm | ⟨_, hmsome⟩
    · exact absurd hm hc.1
    · rcases numOrNone_branch hb with hx | ⟨_, hxsome⟩
      · exact absurd hx hc.2
      · obtain ⟨r, hr⟩ := pyGtVal_ok hmsome hxsome
        rw [hr, except_bind_ok]
        exact ⟨_, rfl⟩
  · rw [if_neg hc]
    exact ⟨_, rfl⟩

theorem checkAmountRange_ok (amin amax : ℚ) (arl : List (String × PyVal))
    (hmin : numOrNone ((pyDictGet arl "min").getD .vNone) = true)
    (hmax : numOrNone ((pyDictGet arl "max").getD .vNone) = true) :
    ∃ w, checkAmountRange amin amax (.vDict arl) = .ok w := by
  unfold checkAmountRange
  refine bind_ok_exists (amountMinWarning_ok hmin amin) (fun w1 => ?_)
  refine bind_ok_exists (amountMaxWarning_ok hmax amax) (fun w2 => ?_)
  refine bind_ok_exists (amountSwapWarning_ok hmin hmax) (fun w3 => ?_)
  exact ⟨_, rfl⟩

/-- C9 amended: for every IR that is a dict, whose
`structured_conditions` (when present) is a dict, and whose
`amount_range` (when it is a dict) carries only numeric or absent
`min`/`max` bounds, `validate_ir` returns a warnings-only
`BusinessValidationResult` and never raises — in particular the
`date_range` hint may carry arbitrary values. -/
theorem validate_ir_total (amin amax : ℚ) {ir : PyVal}
    (h : bizSafe ir = true) :
    ∃ res, BusinessValidator.validate_ir amin amax ir = .ok res := by
  cases ir with
  | vDict l =>
    unfold BusinessValidator.validate_ir
    cases hsc : (pyDictGet l "structured_conditions").getD (.vDict []) with
    | vDict sc =>
      have har : amountRangeOk ((pyDictGet sc "amount_range").getD .vNone) = true := by
        have h2 := h
        rw [show bizSafe (PyVal.vDict l) =
          (match (pyDictGet l "structured_conditions").getD (.vDict []) with
           | PyVal.vDict sc =>
             amountRangeOk ((pyDictGet sc "amount_range").getD .vNone)
           | _ => false) from rfl, hsc] at h2
        exact h2
      have hstep1 : pyGetAttrD (PyVal.vDict l) "structured_conditions" (.vDict []) =
          .ok ((pyDictGet l "structured_conditions").getD (.vDict [])) := rfl
      rw [hstep1, except_bind_ok, hsc]
      have hstep2 : pyGetAttrD (PyVal.vDict sc) "amount_range" PyVal.vNone =
          .ok ((pyDictGet sc "amount_range").getD .vNone) := rfl
      rw [hstep2, except_bind_ok]
      refine bind_ok_exists ?_ (fun aw => ?_)
      · cases harv : (pyDictGet sc "amount_range").getD .vNone with
        | vDict arl =>
          rw [harv] at har
          have h3 := Bool.and_eq_true _ _ ▸ (har : amountRangeOk (.vDict arl) = true)
          exact checkAmountRange_ok amin amax arl h3.1 h3.2
        | vNone => exact ⟨_, rfl⟩
        | vBool b => exact ⟨_, rfl⟩
        | vInt n => exact ⟨_, rfl⟩
        | vStr s => exact ⟨_, rfl⟩
        | vList xs => exact ⟨_, rfl⟩
      · rw [except_bind_ok]
        have hstep3 : pyGetAttrD (PyVal.vDict sc) "date_range" PyVal.vNone =
            .ok ((pyDictGet sc "date_range").getD .vNone) := rfl
        rw [hstep3, except_bind_ok]
        exact ⟨_, rfl⟩
    | vNone =>
      exfalso
      rw [show bizSafe (PyVal.vDict l) =
        (match (pyDictGet l "structured_conditions").getD (.vDict []) with
         | PyVal.vDict sc =>
           amountRangeOk ((pyDictGet sc "amount_range").getD .vNone)
         | _ => false) from rfl, hsc] at h
      simp at h
    | vBool b =>
      exfalso
      rw [show bizSafe (PyVal.vDict l) =
        (match (pyDictGet l "structured_conditions").getD (.vDict []) with
         | PyVal.vDict sc =>
           amountRangeOk ((pyDictGet sc "amount_range").getD .vNone)
         | _ => false) from rfl, hsc] at h
      simp at h
    | vInt n =>
      exfalso
      rw [show bizSafe (PyVal.vDict l) =
        (match (pyDictGet l "structured_conditions").getD (.vDict []) with
         | PyVal.vDict sc =>
           amountRangeOk ((pyDictGet sc "amount_range").getD .vNone)
         | _ => false) from rfl, hsc] at h
      simp at h
    | vStr s =>
      exfalso
      rw [show bizSafe (PyVal.vDict l) =
        (match (pyDictGet l "structured_conditions").getD (.vDict []) with
         | PyVal.vDict sc =>
           amountRangeOk ((pyDictGet sc "amount_range").getD .vNone)
         | _ => false) from rfl, hsc] at h
      simp at h
    | vList xs =>
      exfalso
      rw [show bizSafe (PyVal.vDict l) =
        (match (pyDictGet l "structured_conditions").getD (.vDict []) with
         | PyVal.vDict sc =>
           amountRangeOk ((pyDictGet sc "amount_range").getD .vNone)
         | _ => false) from rfl, hsc] at h
      simp at h
  | vNone => simp [bizSafe] at h
  | vBool b => simp [bizSafe] at h
  | vInt n => simp [bizSafe] at h
  | vStr s => simp [bizSafe] at h
  | vList xs => simp [bizSafe] at h

/-- Witness for C9 (amended): a well-typed IR whose amount range is
inverted produces a warnings-only result. -/
theorem validate_ir_total_witness :
    bizSafe (.vDict [("structured_conditions",
      .vDict [("amount_range",
        .vDict [("min", .vInt 5), ("max", .vInt 3)])])]) = true ∧
    (∃ res, BusinessValidator.validate_ir 0 1000000000
      (.vDict [("structured_conditions",
        .vDict [("amount_range",
          .vDict [("min", .vInt 5), ("max", .vInt 3)])])]) = .ok res) :=
  ⟨by decide, validate_ir_total 0 1000000000 (by decide)⟩

end BusinessClaims

section GeneratorClaims

/-- An external generator that replies with the syntactically valid JSON
object whose single key `foo` does not belong to the UnifiedIR shape. -/
def c2Client : String → Except String String :=
  fun _ => .ok "\x7b\"foo\": 1\x7d"

/-- The `json.loads` behaviour on that reply: it parses successfully. -/
def c2Parse : String → Except String PyVal :=
  fun s => if s = "\x7b\"foo\": 1\x7d" then .ok (.vDict [("foo", .vInt 1)])
    else .error "Expecting value"

/-- C2 (code bug): when the generator replies with valid JSON whose keys
do not match the `UnifiedQueryIR` shape, `LlmIRGenerator.generate` does
not fall back to the rule path — the parse inside `_build_llm_ir`
succeeds, so the `try` block catches nothing, and the later
`UnifiedQueryIR(**ir)` raises an uncaught `TypeError` to the caller. -/
theorem generate_raises_on_wrong_keys :
    LlmIRGenerator.generate (some c2Client) c2Parse defaultIRSchemaCfg
      0 1000000000 (fun _ => none) "测试查询" =
      .error "TypeError: unexpected keyword argument" := rfl

end GeneratorClaims
